import Mathlib

/-!
Verification of the JSON-to-relational normalization and load pipeline of the
Battlefield 2042 weapon-statistics library (`src/database/manager.rs`).

The development shallowly embeds `DatabaseManager::populate_from_json_str` and
`DatabaseManager::validate_data`.  The parsed input document (the `WeaponsData`
structs of `crate::models`, whose source file is not in scope) is modelled from
the spec; every algorithmic definition mirrors the Rust code in `manager.rs`:
the two collection passes, sorting and deduplication of barrel and ammo names,
the id-lookup maps, the second pass that recomputes weapon ids by name, the
sequence of SQL insert statements issued inside the transaction, the
`ON CONFLICT ... DO NOTHING` semantics of each insert, and the validation
report construction.
-/

namespace WeaponStats

/-! ## Byte-lexicographic string order, modelling Rust `Vec<String>::sort` -/

/-- Lexicographic comparison of character lists; on UTF-8 data this order
coincides with Rust's byte-lexicographic `Ord` for `String`. -/
def charsLe : List Char → List Char → Bool
  | [], _ => true
  | _ :: _, [] => false
  | a :: as, b :: bs =>
    if a < b then true
    else if b < a then false
    else charsLe as bs

/-- The string order used by `Vec::<String>::sort` in `populate_from_json_str`. -/
def sLE (a b : String) : Prop := charsLe a.data b.data = true

instance : DecidableRel sLE := fun a b => by unfold sLE; infer_instance

instance : IsTotal String sLE :=
  ⟨fun a b => by
    unfold sLE
    generalize a.data = l₁
    generalize b.data = l₂
    induction l₁ generalizing l₂ with
    | nil => left; rfl
    | cons x xs ih =>
      cases l₂ with
      | nil => right; rfl
      | cons y ys =>
        rcases lt_trichotomy x y with h | h | h
        · left; simp [charsLe, h]
        · subst h; simpa [charsLe] using ih ys
        · right; simp [charsLe, h]⟩

instance : IsTrans String sLE :=
  ⟨fun a b c => by
    unfold sLE
    generalize a.data = l₁
    generalize b.data = l₂
    generalize c.data = l₃
    intro h₁ h₂
    induction l₁ generalizing l₂ l₃ with
    | nil => rfl
    | cons x xs ih =>
      cases l₂ with
      | nil => simp [charsLe] at h₁
      | cons y ys =>
        cases l₃ with
        | nil => simp [charsLe] at h₂
        | cons z zs =>
          rcases lt_trichotomy x y with hab | hab | hab
          · rcases lt_trichotomy y z with hbc | hbc | hbc
            · simp [charsLe, lt_trans hab hbc]
            · subst hbc; simp [charsLe, hab]
            · exfalso; simp [charsLe, asymm hbc, hbc] at h₂
          · subst hab
            rcases lt_trichotomy x z with hac | hac | hac
            · simp [charsLe, hac]
            · subst hac
              simp [charsLe, lt_irrefl] at h₁ h₂ ⊢
              exact ih _ _ h₁ h₂
            · exfalso; simp [charsLe, asymm hac, hac] at h₂
          · exfalso; simp [charsLe, asymm hab, hab] at h₁⟩

instance : IsAntisymm String sLE :=
  ⟨fun a b => by
    cases a with
    | mk l₁ =>
      cases b with
      | mk l₂ =>
        unfold sLE
        intro h₁ h₂
        refine congrArg String.mk ?_
        simp only [String.data] at h₁ h₂
        induction l₁ generalizing l₂ with
        | nil =>
          cases l₂ with
          | nil => rfl
          | cons y ys => simp [charsLe] at h₂
        | cons x xs ih =>
          cases l₂ with
          | nil => simp [charsLe] at h₁
          | cons y ys =>
            rcases lt_trichotomy x y with h | h | h
            · exfalso; simp [charsLe, h, asymm h] at h₂
            · subst h
              simp [charsLe, lt_irrefl] at h₁ h₂
              rw [ih ys h₁ h₂]
            · exfalso; simp [charsLe, h, asymm h] at h₁⟩

/-! ## The parsed input document

Modelled from the spec: the `crate::models` structs deserialized by
`populate_from_json_str` are not among the sources, so their shape is taken
from spec section 4.1: `{ categories: [{ name, weapons: [{ name, stats:
[{barrel_type, ammo_type, velocity, rpm_single?, rpm_burst?, rpm_auto?,
dropoffs: [{range, damage}]}], ammo_stats: {ammo_name: {mag_size,
empty_reload?, tactical_reload?, headshot_multiplier, pellet_count}}}] }] }`.
Numeric payloads are modelled as integers; the claims never compute with them.
The `ammo_stats` map is modelled as an association list in iteration order. -/

/-- Modelled from the spec: one damage-dropoff entry of a stats block. -/
structure DropoffEntry where
  range : Int
  damage : Int
deriving DecidableEq, Repr

/-- Modelled from the spec: one `stats` entry of a weapon. -/
structure WeaponStat where
  barrel_type : String
  ammo_type : String
  velocity : Int
  rpm_single : Option Int
  rpm_burst : Option Int
  rpm_auto : Option Int
  dropoffs : List DropoffEntry
deriving DecidableEq, Repr

/-- Modelled from the spec: the value of one `ammo_stats` map entry. -/
structure AmmoStat where
  mag_size : Int
  empty_reload : Option Int
  tactical_reload : Option Int
  headshot_multiplier : Int
  pellet_count : Int
deriving DecidableEq, Repr

/-- Modelled from the spec: one weapon of a category. -/
structure Weapon where
  name : String
  stats : List WeaponStat
  ammo_stats : List (String × AmmoStat)
deriving DecidableEq, Repr

/-- Modelled from the spec: one top-level category. -/
structure Category where
  name : String
  weapons : List Weapon
deriving DecidableEq, Repr

/-- Modelled from the spec: the whole parsed document. -/
structure WeaponsData where
  categories : List Category
deriving DecidableEq, Repr

/-! ## Row types bound by the insert statements of `populate_from_json_str` -/

/-- Row bound into `weapon_ammo_stats` (manager.rs:280-292). -/
structure WasRow where
  weapon_id : Nat
  ammo_id : Nat
  magazine_size : Int
  empty_reload_time : Option Int
  tactical_reload_time : Option Int
  headshot_multiplier : Int
  pellet_count : Int
deriving DecidableEq, Repr

/-- Row bound into `configurations` (manager.rs:318-331). -/
structure ConfigRow where
  config_id : Nat
  weapon_id : Nat
  barrel_id : Nat
  ammo_id : Nat
  velocity : Int
  rpm_single : Option Int
  rpm_burst : Option Int
  rpm_auto : Option Int
deriving DecidableEq, Repr

/-- Row bound into `config_dropoffs` (manager.rs:334-342). -/
structure DropoffRow where
  config_id : Nat
  range : Int
  damage : Int
deriving DecidableEq, Repr

/-! ## First collection pass (manager.rs:165-206) -/

/-- Category rows: `(category_idx + 1, category.name)` in document order
(manager.rs:173-174). -/
def catRows (d : WeaponsData) : List (Nat × String) :=
  d.categories.enum.map (fun p => (p.1 + 1, p.2.name))

/-- The flattened categories-then-weapons traversal, each weapon paired with
the id (1-based index) of its enclosing category (manager.rs:176-178). -/
def weaponsFlat (d : WeaponsData) : List (Weapon × Nat) :=
  (d.categories.enum.map (fun p => p.2.weapons.map (fun w => (w, p.1 + 1)))).flatten

/-- Weapon rows `(weapon_id, weapon_name, category_id)`: the weapon id is
`weapons.len() + 1` at push time, i.e. the 1-based flattened position
(manager.rs:177-178). -/
def weaponRows (d : WeaponsData) : List (Nat × String × Nat) :=
  (weaponsFlat d).enum.map (fun q => (q.1 + 1, q.2.1.name, q.2.2))

/-- All `barrel_type` strings collected into the barrel set, in traversal
order (manager.rs:181-182). -/
def barrelNames (d : WeaponsData) : List String :=
  (d.categories.map (fun c =>
    (c.weapons.map (fun w => w.stats.map (fun s => s.barrel_type))).flatten)).flatten

/-- All strings collected into the ammo-type set: each stat's `ammo_type` and
each `ammo_stats` key, in traversal order (manager.rs:183, 188). -/
def ammoNames (d : WeaponsData) : List String :=
  (d.categories.map (fun c =>
    (c.weapons.map (fun w =>
      w.stats.map (fun s => s.ammo_type) ++ w.ammo_stats.map (fun p => p.1))).flatten)).flatten

/-- Distinct names of a collection, sorted: the contents of the `HashSet`
after `Vec::sort` (manager.rs:202-206). -/
def sortedDedup (l : List String) : List String :=
  List.insertionSort sLE l.dedup

/-- The sorted barrel-name vector `barrels` (manager.rs:203-204). -/
def barrels_sorted (d : WeaponsData) : List String :=
  sortedDedup (barrelNames d)

/-- The sorted ammo-name vector `ammo_types_vec` (manager.rs:205-206). -/
def ammo_types_vec (d : WeaponsData) : List String :=
  sortedDedup (ammoNames d)

/-- Barrel rows `(idx + 1, barrel_name)` (manager.rs:223-231). -/
def barrelRows (d : WeaponsData) : List (Nat × String) :=
  (barrels_sorted d).enum.map (fun p => (p.1 + 1, p.2))

/-- Ammo-type rows `(idx + 1, ammo_type_name)` (manager.rs:234-242). -/
def ammoRows (d : WeaponsData) : List (Nat × String) :=
  (ammo_types_vec d).enum.map (fun p => (p.1 + 1, p.2))

/-- Name-to-id pairs built by enumerating a sorted name vector
(manager.rs:257-267). -/
def idPairs (l : List String) : List (String × Nat) :=
  l.enum.map (fun p => (p.2, p.1 + 1))

/-- The `barrel_id_map` lookup (manager.rs:257-261). -/
def barrel_id_map (d : WeaponsData) (n : String) : Option Nat :=
  (idPairs (barrels_sorted d)).lookup n

/-- The `ammo_id_map` lookup (manager.rs:263-267). -/
def ammo_id_map (d : WeaponsData) (n : String) : Option Nat :=
  (idPairs (ammo_types_vec d)).lookup n

/-- The raw `weapon_ammo_stats` tuples pushed in the first pass, keyed by the
first-pass weapon id and the ammo name (manager.rs:187-198). -/
def weapon_ammo_stats_raw (d : WeaponsData) : List (Nat × String × AmmoStat) :=
  ((weaponsFlat d).enum.map (fun q =>
    q.2.1.ammo_stats.map (fun p => (q.1 + 1, p.1, p.2)))).flatten

/-- Resolution of one raw weapon-ammo-stat tuple through an ammo map: `None`
models the silently dropped entry of the `if let Some(&ammo_id)` guard
(manager.rs:280-293). -/
def wasRowOf (amap : String → Option Nat) (e : Nat × String × AmmoStat) : Option WasRow :=
  (amap e.2.1).map (fun aid =>
    { weapon_id := e.1
      ammo_id := aid
      magazine_size := e.2.2.mag_size
      empty_reload_time := e.2.2.empty_reload
      tactical_reload_time := e.2.2.tactical_reload
      headshot_multiplier := e.2.2.headshot_multiplier
      pellet_count := e.2.2.pellet_count })

/-- The `weapon_ammo_stats` rows actually inserted (manager.rs:269-294). -/
def wasRows (d : WeaponsData) : List WasRow :=
  (weapon_ammo_stats_raw d).filterMap (wasRowOf (ammo_id_map d))

/-! ## Second pass: configurations and dropoffs (manager.rs:296-349) -/

/-- The weapon id recomputed by name in the second pass: weapons of all
categories strictly before the first category sharing `c`'s name, plus the
weapons strictly before the first weapon of `c` sharing `w`'s name, plus one
(manager.rs:300-311). -/
def secondPassWeaponId (d : WeaponsData) (c : Category) (w : Weapon) : Nat :=
  ((d.categories.takeWhile (fun c2 => c2.name != c.name)).map
      (fun c2 => c2.weapons.length)).sum
    + (c.weapons.takeWhile (fun w2 => w2.name != w.name)).length + 1

/-- One SQL insert statement issued inside the transaction, tagged by table
and carrying the bound row. -/
inductive Stmt where
  | insCategory : Nat × String → Stmt
  | insBarrel : Nat × String → Stmt
  | insAmmoType : Nat × String → Stmt
  | insWeapon : Nat × String × Nat → Stmt
  | insWeaponAmmoStat : WasRow → Stmt
  | insConfiguration : ConfigRow → Stmt
  | insConfigDropoff : DropoffRow → Stmt
deriving DecidableEq, Repr

/-- Statements produced by one `stats` entry, together with the next value of
the `config_id` counter: a resolvable stat emits its configuration insert
immediately followed by its dropoff inserts and advances the counter; an
unresolvable stat emits nothing and leaves the counter unchanged
(manager.rs:313-347). -/
def statStmts (bmap amap : String → Option Nat) (wid cid : Nat)
    (st : WeaponStat) : List Stmt × Nat :=
  match bmap st.barrel_type, amap st.ammo_type with
  | some bid, some aid =>
    (Stmt.insConfiguration
        { config_id := cid, weapon_id := wid, barrel_id := bid, ammo_id := aid
          velocity := st.velocity, rpm_single := st.rpm_single
          rpm_burst := st.rpm_burst, rpm_auto := st.rpm_auto }
      :: st.dropoffs.map (fun dr =>
          Stmt.insConfigDropoff { config_id := cid, range := dr.range, damage := dr.damage }),
      cid + 1)
  | _, _ => ([], cid)

/-- Statements of a weapon's `stats` list (the `for stat in &weapon.stats`
loop, manager.rs:313). -/
def statsStmts (bmap amap : String → Option Nat) (wid : Nat) :
    List WeaponStat → Nat → List Stmt × Nat
  | [], cid => ([], cid)
  | st :: rest, cid =>
    let p := statStmts bmap amap wid cid st
    let q := statsStmts bmap amap wid rest p.2
    (p.1 ++ q.1, q.2)

/-- Statements of the weapons of one category (the `for weapon in
&category.weapons` loop of the second pass, manager.rs:299-311). -/
def weaponsStmts (d : WeaponsData) (bmap amap : String → Option Nat) (c : Category) :
    List Weapon → Nat → List Stmt × Nat
  | [], cid => ([], cid)
  | w :: rest, cid =>
    let p := statsStmts bmap amap (secondPassWeaponId d c w) w.stats cid
    let q := weaponsStmts d bmap amap c rest p.2
    (p.1 ++ q.1, q.2)

/-- Statements of the whole second pass (the `for category in
&weapons_data.categories` loop, manager.rs:297-349). -/
def categoriesStmts (d : WeaponsData) (bmap amap : String → Option Nat) :
    List Category → Nat → List Stmt × Nat
  | [], cid => ([], cid)
  | c :: rest, cid =>
    let p := weaponsStmts d bmap amap c c.weapons cid
    let q := categoriesStmts d bmap amap rest p.2
    (p.1 ++ q.1, q.2)

/-- The configuration and dropoff statements of `populate_from_json_str`,
with the `config_id` counter starting at 1 (manager.rs:296-349). -/
def configStmts (d : WeaponsData) : List Stmt :=
  (categoriesStmts d (barrel_id_map d) (ammo_id_map d) d.categories 1).1

/-- The full ordered sequence of insert statements issued by
`populate_from_json_str` between `begin` and `commit` (manager.rs:208-352). -/
def populate_from_json_str (d : WeaponsData) : List Stmt :=
  (catRows d).map Stmt.insCategory
    ++ (barrelRows d).map Stmt.insBarrel
    ++ (ammoRows d).map Stmt.insAmmoType
    ++ (weaponRows d).map Stmt.insWeapon
    ++ (wasRows d).map Stmt.insWeaponAmmoStat
    ++ configStmts d

/-- Configuration rows bound by a statement sequence, in order. -/
def configRowsOf (l : List Stmt) : List ConfigRow :=
  l.filterMap (fun s =>
    match s with
    | Stmt.insConfiguration r => some r
    | _ => none)

/-- Dropoff rows bound by a statement sequence, in order. -/
def dropoffRowsOf (l : List Stmt) : List DropoffRow :=
  l.filterMap (fun s =>
    match s with
    | Stmt.insConfigDropoff r => some r
    | _ => none)

/-- Weapon-ammo-stat rows bound by a statement sequence, in order. -/
def wasRowsOf (l : List Stmt) : List WasRow :=
  l.filterMap (fun s =>
    match s with
    | Stmt.insWeaponAmmoStat r => some r
    | _ => none)

/-- Configuration ids bound by a statement sequence, in order. -/
def configIdsOf (l : List Stmt) : List Nat :=
  (configRowsOf l).map (fun r => r.config_id)

/-- Table of a statement, numbered in the dependency order of the schema:
categories, barrels, ammo_types, weapons, weapon_ammo_stats, configurations,
config_dropoffs. -/
def tableTag : Stmt → Nat
  | Stmt.insCategory _ => 1
  | Stmt.insBarrel _ => 2
  | Stmt.insAmmoType _ => 3
  | Stmt.insWeapon _ => 4
  | Stmt.insWeaponAmmoStat _ => 5
  | Stmt.insConfiguration _ => 6
  | Stmt.insConfigDropoff _ => 7

/-! ## The relational store

State of the seven tables created by `create_schema` (manager.rs:42-140),
each a list of rows in insertion order. -/

/-- The database state. -/
structure DB where
  categories : List (Nat × String)
  weapons : List (Nat × String × Nat)
  barrels : List (Nat × String)
  ammo_types : List (Nat × String)
  weapon_ammo_stats : List WasRow
  configurations : List ConfigRow
  config_dropoffs : List DropoffRow
deriving DecidableEq, Repr

/-- The empty database, as left by `create_schema` on a fresh store. -/
def emptyDB : DB :=
  { categories := [], weapons := [], barrels := [], ammo_types := []
    weapon_ammo_stats := [], configurations := [], config_dropoffs := [] }

/-- Execution of one insert statement against a database state, following the
schema constraints of manager.rs:46-118 and the `ON CONFLICT ... DO NOTHING`
clause of each insert: a row whose conflict-target key already exists is
skipped without error; any other constraint violation (duplicate primary key,
missing foreign key) fails the statement (`none`). -/
def applyStmt (db : DB) : Stmt → Option DB
  | Stmt.insCategory (cid, nm) =>
    if ∃ r ∈ db.categories, r.2 = nm then some db
    else if ∃ r ∈ db.categories, r.1 = cid then none
    else some { db with categories := db.categories ++ [(cid, nm)] }
  | Stmt.insBarrel (bid, nm) =>
    if ∃ r ∈ db.barrels, r.2 = nm then some db
    else if ∃ r ∈ db.barrels, r.1 = bid then none
    else some { db with barrels := db.barrels ++ [(bid, nm)] }
  | Stmt.insAmmoType (aid, nm) =>
    if ∃ r ∈ db.ammo_types, r.2 = nm then some db
    else if ∃ r ∈ db.ammo_types, r.1 = aid then none
    else some { db with ammo_types := db.ammo_types ++ [(aid, nm)] }
  | Stmt.insWeapon (wid, nm, cid) =>
    if ∃ r ∈ db.weapons, r.2.1 = nm then some db
    else if ∃ r ∈ db.weapons, r.1 = wid then none
    else if ∀ r ∈ db.categories, r.1 ≠ cid then none
    else some { db with weapons := db.weapons ++ [(wid, nm, cid)] }
  | Stmt.insWeaponAmmoStat w =>
    if ∃ r ∈ db.weapon_ammo_stats, r.weapon_id = w.weapon_id ∧ r.ammo_id = w.ammo_id then
      some db
    else if ∀ r ∈ db.weapons, r.1 ≠ w.weapon_id then none
    else if ∀ r ∈ db.ammo_types, r.1 ≠ w.ammo_id then none
    else some { db with weapon_ammo_stats := db.weapon_ammo_stats ++ [w] }
  | Stmt.insConfiguration c =>
    if ∃ r ∈ db.configurations,
        r.weapon_id = c.weapon_id ∧ r.barrel_id = c.barrel_id ∧ r.ammo_id = c.ammo_id then
      some db
    else if ∃ r ∈ db.configurations, r.config_id = c.config_id then none
    else if ∀ r ∈ db.weapons, r.1 ≠ c.weapon_id then none
    else if ∀ r ∈ db.barrels, r.1 ≠ c.barrel_id then none
    else if ∀ r ∈ db.ammo_types, r.1 ≠ c.ammo_id then none
    else some { db with configurations := db.configurations ++ [c] }
  | Stmt.insConfigDropoff dr =>
    if ∃ r ∈ db.config_dropoffs, r.config_id = dr.config_id ∧ r.range = dr.range then
      some db
    else if ∀ r ∈ db.configurations, r.config_id ≠ dr.config_id then none
    else some { db with config_dropoffs := db.config_dropoffs ++ [dr] }

/-- Execution of a statement sequence inside the transaction, starting at
statement index `i`.  The `fault` oracle models an external store failure on a
given statement (connectivity loss, etc.); `none` means some statement failed,
which makes `populate_from_json_str` return early via `?`. -/
def runStmts (fault : Nat → Bool) : DB → List Stmt → Nat → Option DB
  | db, [], _ => some db
  | db, s :: rest, i =>
    if fault i then none
    else
      match applyStmt db s with
      | none => none
      | some db2 => runStmts fault db2 rest (i + 1)

/-- The whole populate operation against a store: all inserts run inside the
single transaction begun at manager.rs:209 and committed at manager.rs:352; on
any statement failure the early `?` return drops the transaction, which rolls
it back, leaving the pool state unchanged. -/
def populate_run (pool : DB) (fault : Nat → Bool) (d : WeaponsData) : DB :=
  match runStmts fault pool (populate_from_json_str d) 0 with
  | some db2 => db2
  | none => pool

/-! ## The validator (manager.rs:438-489) -/

/-- The validation report (`crate::models::ValidationReport`); the
`table_counts` hash map is modelled as an association list in insertion
order. -/
structure ValidationReport where
  is_valid : Bool
  issues : List String
  table_counts : List (String × Nat)
deriving DecidableEq, Repr

/-- The table-name array iterated by `validate_data` (manager.rs:448-451). -/
def tableNames : List String :=
  ["categories", "weapons", "barrels", "ammo_types",
   "weapon_ammo_stats", "configurations", "config_dropoffs"]

/-- Row count of a named table: `SELECT COUNT(*) FROM {table}`
(manager.rs:454). -/
def rowCount (db : DB) (t : String) : Nat :=
  if t = "categories" then db.categories.length
  else if t = "weapons" then db.weapons.length
  else if t = "barrels" then db.barrels.length
  else if t = "ammo_types" then db.ammo_types.length
  else if t = "weapon_ammo_stats" then db.weapon_ammo_stats.length
  else if t = "configurations" then db.configurations.length
  else if t = "config_dropoffs" then db.config_dropoffs.length
  else 0

/-- Count of weapons referencing a non-existent category
(manager.rs:468). -/
def orphanWeapons (db : DB) : Nat :=
  db.weapons.countP (fun w => !db.categories.any (fun c => c.1 == w.2.2))

/-- Count of configurations with an invalid weapon, barrel or ammo reference
(manager.rs:469). -/
def orphanConfigurations (db : DB) : Nat :=
  db.configurations.countP (fun c =>
    !db.weapons.any (fun w => w.1 == c.weapon_id)
      || !db.barrels.any (fun b => b.1 == c.barrel_id)
      || !db.ammo_types.any (fun a => a.1 == c.ammo_id))

/-- Count of dropoffs referencing a non-existent configuration
(manager.rs:470). -/
def orphanDropoffs (db : DB) : Nat :=
  db.config_dropoffs.countP (fun dr =>
    !db.configurations.any (fun c => c.config_id == dr.config_id))

/-- Count of weapon-ammo stats with an invalid weapon or ammo reference
(manager.rs:471). -/
def orphanAmmoStats (db : DB) : Nat :=
  db.weapon_ammo_stats.countP (fun was =>
    !db.weapons.any (fun w => w.1 == was.weapon_id)
      || !db.ammo_types.any (fun a => a.1 == was.ammo_id))

/-- The four integrity queries with their issue descriptions, in execution
order (manager.rs:467-472). -/
def integrityChecks : List ((DB → Nat) × String) :=
  [(orphanWeapons, "weapons reference non-existent categories"),
   (orphanConfigurations, "configurations have invalid references"),
   (orphanDropoffs, "dropoffs reference non-existent configurations"),
   (orphanAmmoStats, "ammo stats have invalid references")]

/-- One iteration of the table-count loop of `validate_data`
(manager.rs:453-464). -/
def checkTable (db : DB) (r : ValidationReport) (t : String) : ValidationReport :=
  let n := rowCount db t
  let r2 := { r with table_counts := r.table_counts ++ [(t, n)] }
  if n = 0 then
    { r2 with is_valid := false
              issues := r2.issues ++ ["Table '" ++ t ++ "' is empty"] }
  else r2

/-- One iteration of the integrity-check loop of `validate_data`
(manager.rs:474-480). -/
def checkIntegrity (db : DB) (r : ValidationReport) (c : (DB → Nat) × String) :
    ValidationReport :=
  let n := c.1 db
  if n > 0 then
    { r with is_valid := false
             issues := r.issues ++ [toString n ++ " " ++ c.2] }
  else r

/-- The `validate_data` report: count every table, flag empty tables, then
run the four integrity queries and flag nonzero counts (manager.rs:438-489). -/
def validate_data (db : DB) : ValidationReport :=
  integrityChecks.foldl (checkIntegrity db)
    (tableNames.foldl (checkTable db)
      { is_valid := true, issues := [], table_counts := [] })

/-- The validate operation against a store: it only issues scalar `SELECT`
queries, so the database state is returned unchanged alongside the report. -/
def validate_run (db : DB) : DB × ValidationReport :=
  (db, validate_data db)

/-! ## Derived notions used to state the claims -/

/-- A statement sequence made of blocks, each a configuration insert
immediately followed by the dropoff inserts that reference it. -/
inductive DepOrdered : List Stmt → Prop where
  | nil : DepOrdered []
  | block (c : ConfigRow) (ds : List DropoffRow) (rest : List Stmt)
      (hds : ∀ dr ∈ ds, dr.config_id = c.config_id)
      (hrest : DepOrdered rest) :
      DepOrdered (Stmt.insConfiguration c :: ds.map Stmt.insConfigDropoff ++ rest)

/-- Flat 0-based position of the `j`-th weapon of the `i`-th category in the
categories-then-weapons traversal: total weapons of the categories before
`i`, plus `j`. -/
def flatPos (cs : List Category) (i j : Nat) : Nat :=
  ((cs.take i).map (fun c => c.weapons.length)).sum + j

/-- Flattened list of weapons paired with category ids, with category indices
starting at `k`. -/
def flatParts (k : Nat) (cs : List Category) : List (Weapon × Nat) :=
  ((cs.enumFrom k).map (fun p => p.2.weapons.map (fun w => (w, p.1 + 1)))).flatten

/-- The natural unique key of a statement's row is already present in the
store: an existing category/barrel/ammo-type/weapon row with the same name,
or an existing row with the same composite key `(weapon_id, ammo_id)`,
`(weapon_id, barrel_id, ammo_id)` or `(config_id, range)`.  This is exactly
the conflict target of the corresponding `ON CONFLICT` clause
(manager.rs:214-336). -/
def natural_key_present : Stmt → DB → Prop
  | Stmt.insCategory (_, nm), db => ∃ r ∈ db.categories, r.2 = nm
  | Stmt.insBarrel (_, nm), db => ∃ r ∈ db.barrels, r.2 = nm
  | Stmt.insAmmoType (_, nm), db => ∃ r ∈ db.ammo_types, r.2 = nm
  | Stmt.insWeapon (_, nm, _), db => ∃ r ∈ db.weapons, r.2.1 = nm
  | Stmt.insWeaponAmmoStat w, db =>
    ∃ r ∈ db.weapon_ammo_stats, r.weapon_id = w.weapon_id ∧ r.ammo_id = w.ammo_id
  | Stmt.insConfiguration c, db =>
    ∃ r ∈ db.configurations,
      r.weapon_id = c.weapon_id ∧ r.barrel_id = c.barrel_id ∧ r.ammo_id = c.ammo_id
  | Stmt.insConfigDropoff dr, db =>
    ∃ r ∈ db.config_dropoffs, r.config_id = dr.config_id ∧ r.range = dr.range

/-- The per-table row counts of a store, in the table order of
`validate_data`. -/
def tableCountsDB (db : DB) : List (String × Nat) :=
  tableNames.map (fun t => (t, rowCount db t))

/-- Total number of stats entries across all weapons of the document. -/
def totalStats (d : WeaponsData) : Nat :=
  (d.categories.map (fun c => (c.weapons.map (fun w => w.stats.length)).sum)).sum

/-- All `ammo_type` strings of all stats entries, in traversal order. -/
def stats_ammo_names (d : WeaponsData) : List String :=
  (d.categories.map (fun c =>
    (c.weapons.map (fun w => w.stats.map (fun s => s.ammo_type))).flatten)).flatten

/-- All `ammo_stats` keys of all weapons, in traversal order. -/
def ammo_stat_keys (d : WeaponsData) : List String :=
  (d.categories.map (fun c =>
    (c.weapons.map (fun w => w.ammo_stats.map (fun p => p.1))).flatten)).flatten

/-! ## Concrete documents used as witnesses and counterexamples -/

/-- The worked example of spec section 8: one category, one weapon, one stat
with two dropoffs. -/
def exDoc : WeaponsData :=
  { categories :=
      [{ name := "Assault Rifles"
         weapons :=
           [{ name := "M4"
              stats :=
                [{ barrel_type := "Standard", ammo_type := "5.56mm"
                   velocity := 800, rpm_single := none, rpm_burst := none
                   rpm_auto := some 700
                   dropoffs := [{ range := 10, damage := 25 }, { range := 50, damage := 18 }] }]
              ammo_stats :=
                [("5.56mm",
                  { mag_size := 30, empty_reload := some 3, tactical_reload := some 2
                    headshot_multiplier := 2, pellet_count := 1 })] }] }] }

/-- A document with two weapons sharing the name `X` inside one category; the
second one carries the only stats entry. -/
def dupDoc : WeaponsData :=
  { categories :=
      [{ name := "A"
         weapons :=
           [{ name := "X", stats := [], ammo_stats := [] },
            { name := "X"
              stats :=
                [{ barrel_type := "B", ammo_type := "M", velocity := 5
                   rpm_single := none, rpm_burst := none, rpm_auto := none
                   dropoffs := [] }]
              ammo_stats := [] }] }] }

/-- A document whose single weapon has two stats entries, the first of which
carries a dropoff. -/
def twoStatDoc : WeaponsData :=
  { categories :=
      [{ name := "A"
         weapons :=
           [{ name := "W"
              stats :=
                [{ barrel_type := "B1", ammo_type := "M", velocity := 1
                   rpm_single := none, rpm_burst := none, rpm_auto := none
                   dropoffs := [{ range := 10, damage := 25 }] },
                 { barrel_type := "B2", ammo_type := "M", velocity := 2
                   rpm_single := none, rpm_burst := none, rpm_auto := none
                   dropoffs := [] }]
              ammo_stats := [] }] }] }

/-! ## Helper lemmas about the sorted deduplicated name vectors -/

theorem sortedDedup_sorted (l : List String) : (sortedDedup l).Sorted sLE :=
  List.sorted_insertionSort sLE l.dedup

theorem sortedDedup_nodup (l : List String) : (sortedDedup l).Nodup :=
  (List.perm_insertionSort sLE l.dedup).nodup_iff.mpr (List.nodup_dedup l)

theorem mem_sortedDedup (l : List String) (a : String) : a ∈ sortedDedup l ↔ a ∈ l := by
  unfold sortedDedup
  rw [(List.perm_insertionSort sLE l.dedup).mem_iff]
  exact List.mem_dedup

theorem sortedDedup_eq_of_mem_iff (l₁ l₂ : List String)
    (h : ∀ s, s ∈ l₁ ↔ s ∈ l₂) : sortedDedup l₁ = sortedDedup l₂ := by
  refine List.eq_of_perm_of_sorted ?_ (sortedDedup_sorted l₁) (sortedDedup_sorted l₂)
  refine (List.perm_ext_iff_of_nodup (sortedDedup_nodup l₁) (sortedDedup_nodup l₂)).mpr ?_
  intro a
  rw [mem_sortedDedup, mem_sortedDedup]
  exact h a

/-! ## Helper lemmas about the enumerated id maps and rows -/

theorem lookup_idPairs_enumFrom (l : List String) (hl : l.Nodup) (k i : Nat)
    (h : i < l.length) :
    ((l.enumFrom k).map (fun p => (p.2, p.1 + 1))).lookup (l.get ⟨i, h⟩) = some (k + i + 1) := by
  induction l generalizing k i with
  | nil => simp at h
  | cons a rest ih =>
    cases i with
    | zero => simp [List.enumFrom]
    | succ j =>
      have hj : j < rest.length := Nat.lt_of_succ_lt_succ h
      have hne : a ≠ rest.get ⟨j, hj⟩ := by
        intro hEq
        exact (List.nodup_cons.mp hl).1 (hEq ▸ List.get_mem rest j hj)
      have : ((rest.get ⟨j, hj⟩) == a) = false :=
        beq_eq_false_iff_ne.mpr (fun hEq => hne hEq.symm)
      simp only [List.enumFrom, List.map_cons, List.get_cons_succ, List.lookup, this]
      have := ih (List.nodup_cons.mp hl).2 (k + 1) j hj
      simpa [Nat.add_assoc, Nat.add_comm, Nat.add_left_comm] using this

theorem lookup_idPairs_get (l : List String) (hl : l.Nodup) (i : Nat) (h : i < l.length) :
    (idPairs l).lookup (l.get ⟨i, h⟩) = some (i + 1) := by
  have h0 := lookup_idPairs_enumFrom l hl 0 i h
  simp only [Nat.zero_add] at h0
  exact h0

theorem lookup_idPairs_isSome_enumFrom (l : List String) (n : String) (hn : n ∈ l) (k : Nat) :
    ∃ j, ((l.enumFrom k).map (fun p => (p.2, p.1 + 1))).lookup n = some j
      ∧ k + 1 ≤ j ∧ j ≤ k + l.length := by
  induction l generalizing k with
  | nil => simp at hn
  | cons a rest ih =>
    by_cases hEq : n = a
    · subst hEq
      exact ⟨k + 1, by simp [List.enumFrom, List.lookup], Nat.le_refl _, by simp⟩
    · have hmem : n ∈ rest := by
        rcases List.mem_cons.mp hn with h | h
        · exact absurd h hEq
        · exact h
      obtain ⟨j, hj, hj1, hj2⟩ := ih hmem (k + 1)
      refine ⟨j, ?_, Nat.le_of_succ_le hj1, by simp only [List.length_cons]; omega⟩
      have : (n == a) = false := by simp [hEq]
      simp only [List.enumFrom, List.map_cons, List.lookup, this]
      exact hj

theorem lookup_idPairs_of_mem (l : List String) (n : String) (hn : n ∈ l) :
    ∃ j, (idPairs l).lookup n = some j ∧ 1 ≤ j ∧ j ≤ l.length := by
  obtain ⟨j, hj, hj1, hj2⟩ := lookup_idPairs_isSome_enumFrom l n hn 0
  exact ⟨j, hj, hj1, by simpa using hj2⟩

theorem lookup_idPairs_mem_range (l : List String) (n : String) (j : Nat)
    (h : (idPairs l).lookup n = some j) : 1 ≤ j ∧ j ≤ l.length := by
  suffices H : ∀ (k : Nat),
      ((l.enumFrom k).map (fun p => (p.2, p.1 + 1))).lookup n = some j →
      k + 1 ≤ j ∧ j ≤ k + l.length by
    have h0 := H 0 h
    simpa using h0
  clear h
  induction l with
  | nil => intro k h; simp [List.enumFrom, List.lookup] at h
  | cons a rest ih =>
    intro k h
    simp only [List.enumFrom, List.map_cons, List.lookup] at h
    cases hna : n == a
    · rw [hna] at h
      obtain ⟨h1, h2⟩ := ih (k + 1) h
      refine ⟨Nat.le_of_succ_le h1, ?_⟩
      simp only [List.length_cons] at *
      omega
    · rw [hna] at h
      obtain rfl : k + 1 = j := Option.some.inj h
      exact ⟨Nat.le_refl _, by simp⟩

/-! ## Helper lemmas about the second pass -/

theorem configRowsOf_append (l₁ l₂ : List Stmt) :
    configRowsOf (l₁ ++ l₂) = configRowsOf l₁ ++ configRowsOf l₂ := by
  simp [configRowsOf]

theorem dropoffRowsOf_append (l₁ l₂ : List Stmt) :
    dropoffRowsOf (l₁ ++ l₂) = dropoffRowsOf l₁ ++ dropoffRowsOf l₂ := by
  simp [dropoffRowsOf]

theorem wasRowsOf_append (l₁ l₂ : List Stmt) :
    wasRowsOf (l₁ ++ l₂) = wasRowsOf l₁ ++ wasRowsOf l₂ := by
  simp [wasRowsOf]

theorem configIdsOf_append (l₁ l₂ : List Stmt) :
    configIdsOf (l₁ ++ l₂) = configIdsOf l₁ ++ configIdsOf l₂ := by
  simp [configIdsOf, configRowsOf_append]

theorem statStmts_unresolved (bmap amap : String → Option Nat) (wid cid : Nat)
    (st : WeaponStat)
    (h : bmap st.barrel_type = none ∨ amap st.ammo_type = none) :
    statStmts bmap amap wid cid st = ([], cid) := by
  rcases hb : bmap st.barrel_type with _ | bid <;>
    rcases ha : amap st.ammo_type with _ | aid <;>
      simp_all [statStmts]

theorem statStmts_resolved (bmap amap : String → Option Nat) (wid cid : Nat)
    (st : WeaponStat) (bid aid : Nat)
    (hb : bmap st.barrel_type = some bid) (ha : amap st.ammo_type = some aid) :
    statStmts bmap amap wid cid st =
      (Stmt.insConfiguration
          { config_id := cid, weapon_id := wid, barrel_id := bid, ammo_id := aid
            velocity := st.velocity, rpm_single := st.rpm_single
            rpm_burst := st.rpm_burst, rpm_auto := st.rpm_auto }
        :: st.dropoffs.map (fun dr =>
            Stmt.insConfigDropoff { config_id := cid, range := dr.range, damage := dr.damage }),
        cid + 1) := by
  simp [statStmts, hb, ha]

theorem configRowsOf_cons_config (r : ConfigRow) (l : List Stmt) :
    configRowsOf (Stmt.insConfiguration r :: l) = r :: configRowsOf l := by
  simp [configRowsOf]

theorem configRowsOf_map_dropoffs (cid : Nat) (ds : List DropoffEntry) :
    configRowsOf (ds.map (fun dr =>
      Stmt.insConfigDropoff { config_id := cid, range := dr.range, damage := dr.damage })) = [] := by
  induction ds with
  | nil => rfl
  | cons a rest ih => simpa [configRowsOf] using ih

theorem dropoffRowsOf_map_dropoffs (cid : Nat) (ds : List DropoffEntry) :
    dropoffRowsOf (ds.map (fun dr =>
      Stmt.insConfigDropoff { config_id := cid, range := dr.range, damage := dr.damage }))
      = ds.map (fun dr => { config_id := cid, range := dr.range, damage := dr.damage }) := by
  induction ds with
  | nil => rfl
  | cons a rest ih => simpa [dropoffRowsOf] using ih

theorem statStmts_ids (bmap amap : String → Option Nat) (wid cid : Nat) (st : WeaponStat) :
    configIdsOf (statStmts bmap amap wid cid st).1
      = List.range' cid (configRowsOf (statStmts bmap amap wid cid st).1).length
    ∧ (statStmts bmap amap wid cid st).2
      = cid + (configRowsOf (statStmts bmap amap wid cid st).1).length := by
  rcases hb : bmap st.barrel_type with _ | bid
  · simp [statStmts_unresolved bmap amap wid cid st (Or.inl hb), configIdsOf, configRowsOf]
  · rcases ha : amap st.ammo_type with _ | aid
    · simp [statStmts_unresolved bmap amap wid cid st (Or.inr ha), configIdsOf, configRowsOf]
    · rw [statStmts_resolved bmap amap wid cid st bid aid hb ha]
      simp only [configIdsOf, configRowsOf_cons_config, configRowsOf_map_dropoffs,
        List.map_cons, List.map_nil, List.length_cons, List.length_nil]
      exact ⟨by simp [List.range'_succ], trivial⟩

theorem range'_glue (c m n : Nat) :
    List.range' c m ++ List.range' (c + m) n = List.range' c (m + n) := by
  have h := List.range'_append c m n 1
  simpa [Nat.add_comm n m] using h

theorem statsStmts_ids (bmap amap : String → Option Nat) (wid : Nat) :
    ∀ (sts : List WeaponStat) (cid : Nat),
      configIdsOf (statsStmts bmap amap wid sts cid).1
        = List.range' cid (configRowsOf (statsStmts bmap amap wid sts cid).1).length
      ∧ (statsStmts bmap amap wid sts cid).2
        = cid + (configRowsOf (statsStmts bmap amap wid sts cid).1).length := by
  intro sts
  induction sts with
  | nil => intro cid; simp [statsStmts, configIdsOf, configRowsOf]
  | cons st rest ih =>
    intro cid
    obtain ⟨hp, hp2⟩ := statStmts_ids bmap amap wid cid st
    obtain ⟨hq, hq2⟩ := ih (statStmts bmap amap wid cid st).2
    simp only [statsStmts, configIdsOf_append, configRowsOf_append, List.length_append]
    constructor
    · rw [hp, hq, hp2]
      exact range'_glue cid _ _
    · rw [hq2, hp2]
      omega

theorem weaponsStmts_ids (d : WeaponsData) (bmap amap : String → Option Nat) (c : Category) :
    ∀ (ws : List Weapon) (cid : Nat),
      configIdsOf (weaponsStmts d bmap amap c ws cid).1
        = List.range' cid (configRowsOf (weaponsStmts d bmap amap c ws cid).1).length
      ∧ (weaponsStmts d bmap amap c ws cid).2
        = cid + (configRowsOf (weaponsStmts d bmap amap c ws cid).1).length := by
  intro ws
  induction ws with
  | nil => intro cid; simp [weaponsStmts, configIdsOf, configRowsOf]
  | cons w rest ih =>
    intro cid
    obtain ⟨hp, hp2⟩ := statsStmts_ids bmap amap (secondPassWeaponId d c w) w.stats cid
    obtain ⟨hq, hq2⟩ :=
      ih (statsStmts bmap amap (secondPassWeaponId d c w) w.stats cid).2
    simp only [weaponsStmts, configIdsOf_append, configRowsOf_append, List.length_append]
    constructor
    · rw [hp, hq, hp2]
      exact range'_glue cid _ _
    · rw [hq2, hp2]
      omega

theorem categoriesStmts_ids (d : WeaponsData) (bmap amap : String → Option Nat) :
    ∀ (cs : List Category) (cid : Nat),
      configIdsOf (categoriesStmts d bmap amap cs cid).1
        = List.range' cid (configRowsOf (categoriesStmts d bmap amap cs cid).1).length
      ∧ (categoriesStmts d bmap amap cs cid).2
        = cid + (configRowsOf (categoriesStmts d bmap amap cs cid).1).length := by
  intro cs
  induction cs with
  | nil => intro cid; simp [categoriesStmts, configIdsOf, configRowsOf]
  | cons c rest ih =>
    intro cid
    obtain ⟨hp, hp2⟩ := weaponsStmts_ids d bmap amap c c.weapons cid
    obtain ⟨hq, hq2⟩ := ih (weaponsStmts d bmap amap c c.weapons cid).2
    simp only [categoriesStmts, configIdsOf_append, configRowsOf_append, List.length_append]
    constructor
    · rw [hp, hq, hp2]
      exact range'_glue cid _ _
    · rw [hq2, hp2]
      omega

theorem dropoffRowsOf_cons_config (r : ConfigRow) (l : List Stmt) :
    dropoffRowsOf (Stmt.insConfiguration r :: l) = dropoffRowsOf l := by
  simp [dropoffRowsOf]

theorem statStmts_dropoff_cover (bmap amap : String → Option Nat) (wid cid : Nat)
    (st : WeaponStat) :
    ∀ dr ∈ dropoffRowsOf (statStmts bmap amap wid cid st).1,
      ∃ c ∈ configRowsOf (statStmts bmap amap wid cid st).1, c.config_id = dr.config_id := by
  intro dr hdr
  rcases hb : bmap st.barrel_type with _ | bid
  · rw [statStmts_unresolved bmap amap wid cid st (Or.inl hb)] at hdr
    simp [dropoffRowsOf] at hdr
  · rcases ha : amap st.ammo_type with _ | aid
    · rw [statStmts_unresolved bmap amap wid cid st (Or.inr ha)] at hdr
      simp [dropoffRowsOf] at hdr
    · rw [statStmts_resolved bmap amap wid cid st bid aid hb ha] at hdr ⊢
      rw [dropoffRowsOf_cons_config, dropoffRowsOf_map_dropoffs] at hdr
      obtain ⟨e, _, rfl⟩ := List.mem_map.mp hdr
      refine ⟨{ config_id := cid, weapon_id := wid, barrel_id := bid, ammo_id := aid
                velocity := st.velocity, rpm_single := st.rpm_single
                rpm_burst := st.rpm_burst, rpm_auto := st.rpm_auto }, ?_, rfl⟩
      rw [configRowsOf_cons_config]
      exact List.mem_cons_self _ _

theorem statsStmts_dropoff_cover (bmap amap : String → Option Nat) (wid : Nat) :
    ∀ (sts : List WeaponStat) (cid : Nat),
      ∀ dr ∈ dropoffRowsOf (statsStmts bmap amap wid sts cid).1,
        ∃ c ∈ configRowsOf (statsStmts bmap amap wid sts cid).1,
          c.config_id = dr.config_id := by
  intro sts
  induction sts with
  | nil => intro cid dr hdr; simp [statsStmts, dropoffRowsOf] at hdr
  | cons st rest ih =>
    intro cid dr hdr
    simp only [statsStmts, dropoffRowsOf_append, List.mem_append] at hdr
    simp only [statsStmts, configRowsOf_append]
    rcases hdr with h | h
    · obtain ⟨c, hc, hcid⟩ := statStmts_dropoff_cover bmap amap wid cid st dr h
      exact ⟨c, List.mem_append_left _ hc, hcid⟩
    · obtain ⟨c, hc, hcid⟩ := ih (statStmts bmap amap wid cid st).2 dr h
      exact ⟨c, List.mem_append_right _ hc, hcid⟩

theorem weaponsStmts_dropoff_cover (d : WeaponsData) (bmap amap : String → Option Nat)
    (c : Category) :
    ∀ (ws : List Weapon) (cid : Nat),
      ∀ dr ∈ dropoffRowsOf (weaponsStmts d bmap amap c ws cid).1,
        ∃ r ∈ configRowsOf (weaponsStmts d bmap amap c ws cid).1,
          r.config_id = dr.config_id := by
  intro ws
  induction ws with
  | nil => intro cid dr hdr; simp [weaponsStmts, dropoffRowsOf] at hdr
  | cons w rest ih =>
    intro cid dr hdr
    simp only [weaponsStmts, dropoffRowsOf_append, List.mem_append] at hdr
    simp only [weaponsStmts, configRowsOf_append]
    rcases hdr with h | h
    · obtain ⟨r, hr, hcid⟩ :=
        statsStmts_dropoff_cover bmap amap (secondPassWeaponId d c w) w.stats cid dr h
      exact ⟨r, List.mem_append_left _ hr, hcid⟩
    · obtain ⟨r, hr, hcid⟩ :=
        ih (statsStmts bmap amap (secondPassWeaponId d c w) w.stats cid).2 dr h
      exact ⟨r, List.mem_append_right _ hr, hcid⟩

theorem categoriesStmts_dropoff_cover (d : WeaponsData) (bmap amap : String → Option Nat) :
    ∀ (cs : List Category) (cid : Nat),
      ∀ dr ∈ dropoffRowsOf (categoriesStmts d bmap amap cs cid).1,
        ∃ r ∈ configRowsOf (categoriesStmts d bmap amap cs cid).1,
          r.config_id = dr.config_id := by
  intro cs
  induction cs with
  | nil => intro cid dr hdr; simp [categoriesStmts, dropoffRowsOf] at hdr
  | cons c rest ih =>
    intro cid dr hdr
    simp only [categoriesStmts, dropoffRowsOf_append, List.mem_append] at hdr
    simp only [categoriesStmts, configRowsOf_append]
    rcases hdr with h | h
    · obtain ⟨r, hr, hcid⟩ := weaponsStmts_dropoff_cover d bmap amap c c.weapons cid dr h
      exact ⟨r, List.mem_append_left _ hr, hcid⟩
    · obtain ⟨r, hr, hcid⟩ := ih (weaponsStmts d bmap amap c c.weapons cid).2 dr h
      exact ⟨r, List.mem_append_right _ hr, hcid⟩

theorem statsStmts_src (bmap amap : String → Option Nat) (wid : Nat) :
    ∀ (sts : List WeaponStat) (cid : Nat),
      ∀ r ∈ configRowsOf (statsStmts bmap amap wid sts cid).1,
        r.weapon_id = wid
          ∧ (∃ n, bmap n = some r.barrel_id) ∧ (∃ n, amap n = some r.ammo_id) := by
  intro sts
  induction sts with
  | nil => intro cid r hr; simp [statsStmts, configRowsOf] at hr
  | cons st rest ih =>
    intro cid r hr
    simp only [statsStmts, configRowsOf_append, List.mem_append] at hr
    rcases hr with h | h
    · rcases hb : bmap st.barrel_type with _ | bid
      · rw [statStmts_unresolved bmap amap wid cid st (Or.inl hb)] at h
        simp [configRowsOf] at h
      · rcases ha : amap st.ammo_type with _ | aid
        · rw [statStmts_unresolved bmap amap wid cid st (Or.inr ha)] at h
          simp [configRowsOf] at h
        · rw [statStmts_resolved bmap amap wid cid st bid aid hb ha,
            configRowsOf_cons_config, configRowsOf_map_dropoffs] at h
          rcases List.mem_cons.mp h with rfl | h2
          · exact ⟨rfl, ⟨st.barrel_type, hb⟩, ⟨st.ammo_type, ha⟩⟩
          · simp at h2
    · exact ih (statStmts bmap amap wid cid st).2 r h

theorem weaponsStmts_src (d : WeaponsData) (bmap amap : String → Option Nat) (c : Category) :
    ∀ (ws : List Weapon) (cid : Nat),
      ∀ r ∈ configRowsOf (weaponsStmts d bmap amap c ws cid).1,
        (∃ w ∈ ws, r.weapon_id = secondPassWeaponId d c w)
          ∧ (∃ n, bmap n = some r.barrel_id) ∧ (∃ n, amap n = some r.ammo_id) := by
  intro ws
  induction ws with
  | nil => intro cid r hr; simp [weaponsStmts, configRowsOf] at hr
  | cons w rest ih =>
    intro cid r hr
    simp only [weaponsStmts, configRowsOf_append, List.mem_append] at hr
    rcases hr with h | h
    · obtain ⟨hw, hb, ha⟩ :=
        statsStmts_src bmap amap (secondPassWeaponId d c w) w.stats cid r h
      exact ⟨⟨w, List.mem_cons_self _ _, hw⟩, hb, ha⟩
    · obtain ⟨⟨w2, hw2, hid⟩, hb, ha⟩ :=
        ih (statsStmts bmap amap (secondPassWeaponId d c w) w.stats cid).2 r h
      exact ⟨⟨w2, List.mem_cons_of_mem _ hw2, hid⟩, hb, ha⟩

theorem categoriesStmts_src (d : WeaponsData) (bmap amap : String → Option Nat) :
    ∀ (cs : List Category) (cid : Nat),
      ∀ r ∈ configRowsOf (categoriesStmts d bmap amap cs cid).1,
        (∃ c ∈ cs, ∃ w ∈ c.weapons, r.weapon_id = secondPassWeaponId d c w)
          ∧ (∃ n, bmap n = some r.barrel_id) ∧ (∃ n, amap n = some r.ammo_id) := by
  intro cs
  induction cs with
  | nil => intro cid r hr; simp [categoriesStmts, configRowsOf] at hr
  | cons c rest ih =>
    intro cid r hr
    simp only [categoriesStmts, configRowsOf_append, List.mem_append] at hr
    rcases hr with h | h
    · obtain ⟨⟨w, hw, hid⟩, hb, ha⟩ := weaponsStmts_src d bmap amap c c.weapons cid r h
      exact ⟨⟨c, List.mem_cons_self _ _, w, hw, hid⟩, hb, ha⟩
    · obtain ⟨⟨c2, hc2, w, hw, hid⟩, hb, ha⟩ :=
        ih (weaponsStmts d bmap amap c c.weapons cid).2 r h
      exact ⟨⟨c2, List.mem_cons_of_mem _ hc2, w, hw, hid⟩, hb, ha⟩

/-! ## Block structure of the second pass -/

theorem DepOrdered.append (l₁ l₂ : List Stmt) (h₁ : DepOrdered l₁) (h₂ : DepOrdered l₂) :
    DepOrdered (l₁ ++ l₂) := by
  induction h₁ with
  | nil => simpa using h₂
  | block c ds rest hds _ ih =>
    have : Stmt.insConfiguration c :: ds.map Stmt.insConfigDropoff ++ rest ++ l₂
        = Stmt.insConfiguration c :: ds.map Stmt.insConfigDropoff ++ (rest ++ l₂) := by
      simp
    rw [this]
    exact DepOrdered.block c ds (rest ++ l₂) hds ih

theorem statStmts_depOrdered (bmap amap : String → Option Nat) (wid cid : Nat)
    (st : WeaponStat) : DepOrdered (statStmts bmap amap wid cid st).1 := by
  rcases hb : bmap st.barrel_type with _ | bid
  · rw [statStmts_unresolved bmap amap wid cid st (Or.inl hb)]
    exact DepOrdered.nil
  · rcases ha : amap st.ammo_type with _ | aid
    · rw [statStmts_unresolved bmap amap wid cid st (Or.inr ha)]
      exact DepOrdered.nil
    · rw [statStmts_resolved bmap amap wid cid st bid aid hb ha]
      have h := DepOrdered.block
        { config_id := cid, weapon_id := wid, barrel_id := bid, ammo_id := aid
          velocity := st.velocity, rpm_single := st.rpm_single
          rpm_burst := st.rpm_burst, rpm_auto := st.rpm_auto }
        (st.dropoffs.map (fun dr =>
          { config_id := cid, range := dr.range, damage := dr.damage }))
        [] (by intro dr hdr; obtain ⟨e, _, rfl⟩ := List.mem_map.mp hdr; rfl)
        DepOrdered.nil
      simpa [List.map_map, Function.comp] using h

theorem statsStmts_depOrdered (bmap amap : String → Option Nat) (wid : Nat) :
    ∀ (sts : List WeaponStat) (cid : Nat),
      DepOrdered (statsStmts bmap amap wid sts cid).1 := by
  intro sts
  induction sts with
  | nil => intro cid; exact DepOrdered.nil
  | cons st rest ih =>
    intro cid
    exact DepOrdered.append _ _ (statStmts_depOrdered bmap amap wid cid st)
      (ih (statStmts bmap amap wid cid st).2)

theorem weaponsStmts_depOrdered (d : WeaponsData) (bmap amap : String → Option Nat)
    (c : Category) :
    ∀ (ws : List Weapon) (cid : Nat),
      DepOrdered (weaponsStmts d bmap amap c ws cid).1 := by
  intro ws
  induction ws with
  | nil => intro cid; exact DepOrdered.nil
  | cons w rest ih =>
    intro cid
    exact DepOrdered.append _ _
      (statsStmts_depOrdered bmap amap (secondPassWeaponId d c w) w.stats cid)
      (ih (statsStmts bmap amap (secondPassWeaponId d c w) w.stats cid).2)

theorem categoriesStmts_depOrdered (d : WeaponsData) (bmap amap : String → Option Nat) :
    ∀ (cs : List Category) (cid : Nat),
      DepOrdered (categoriesStmts d bmap amap cs cid).1 := by
  intro cs
  induction cs with
  | nil => intro cid; exact DepOrdered.nil
  | cons c rest ih =>
    intro cid
    exact DepOrdered.append _ _
      (weaponsStmts_depOrdered d bmap amap c c.weapons cid)
      (ih (weaponsStmts d bmap amap c c.weapons cid).2)

/-! ## Resolvability of every name encountered in the second pass -/

theorem mem_flatten_of_parts {α : Type} (outer : List (List α)) (inner : List α) (a : α)
    (ho : inner ∈ outer) (ha : a ∈ inner) : a ∈ outer.flatten :=
  List.mem_flatten.mpr ⟨inner, ho, ha⟩

theorem barrel_type_mem_barrelNames (d : WeaponsData) (c : Category) (w : Weapon)
    (st : WeaponStat) (hc : c ∈ d.categories) (hw : w ∈ c.weapons) (hst : st ∈ w.stats) :
    st.barrel_type ∈ barrelNames d := by
  unfold barrelNames
  refine mem_flatten_of_parts _ _ _ (List.mem_map_of_mem _ hc) ?_
  refine mem_flatten_of_parts _ _ _ (List.mem_map_of_mem _ hw) ?_
  exact List.mem_map_of_mem _ hst

theorem ammo_type_mem_ammoNames (d : WeaponsData) (c : Category) (w : Weapon)
    (st : WeaponStat) (hc : c ∈ d.categories) (hw : w ∈ c.weapons) (hst : st ∈ w.stats) :
    st.ammo_type ∈ ammoNames d := by
  unfold ammoNames
  refine mem_flatten_of_parts _ _ _ (List.mem_map_of_mem _ hc) ?_
  refine mem_flatten_of_parts _ _ _ (List.mem_map_of_mem _ hw) ?_
  exact List.mem_append_left _ (List.mem_map_of_mem _ hst)

theorem ammo_key_mem_ammoNames (d : WeaponsData) (c : Category) (w : Weapon)
    (p : String × AmmoStat) (hc : c ∈ d.categories) (hw : w ∈ c.weapons)
    (hp : p ∈ w.ammo_stats) : p.1 ∈ ammoNames d := by
  unfold ammoNames
  refine mem_flatten_of_parts _ _ _ (List.mem_map_of_mem _ hc) ?_
  refine mem_flatten_of_parts _ _ _ (List.mem_map_of_mem _ hw) ?_
  exact List.mem_append_right _ (List.mem_map_of_mem _ hp)

theorem barrel_id_map_isSome_of_mem (d : WeaponsData) (n : String)
    (hn : n ∈ barrelNames d) : (barrel_id_map d n).isSome := by
  obtain ⟨j, hj, _, _⟩ :=
    lookup_idPairs_of_mem (barrels_sorted d) n ((mem_sortedDedup _ n).mpr hn)
  simp [barrel_id_map, hj]

theorem ammo_id_map_isSome_of_mem (d : WeaponsData) (n : String)
    (hn : n ∈ ammoNames d) : (ammo_id_map d n).isSome := by
  obtain ⟨j, hj, _, _⟩ :=
    lookup_idPairs_of_mem (ammo_types_vec d) n ((mem_sortedDedup _ n).mpr hn)
  simp [ammo_id_map, hj]

/-! ## Counting the second pass when every name resolves -/

theorem statsStmts_count (bmap amap : String → Option Nat) (wid : Nat) :
    ∀ (sts : List WeaponStat) (cid : Nat),
      (∀ st ∈ sts, (bmap st.barrel_type).isSome ∧ (amap st.ammo_type).isSome) →
      (configRowsOf (statsStmts bmap amap wid sts cid).1).length = sts.length := by
  intro sts
  induction sts with
  | nil => intro cid _; simp [statsStmts, configRowsOf]
  | cons st rest ih =>
    intro cid h
    obtain ⟨hb, ha⟩ := h st (List.mem_cons_self _ _)
    obtain ⟨bid, hb⟩ := Option.isSome_iff_exists.mp hb
    obtain ⟨aid, ha⟩ := Option.isSome_iff_exists.mp ha
    have hres := statStmts_resolved bmap amap wid cid st bid aid hb ha
    have hrest := ih (cid + 1) (fun st2 h2 => h st2 (List.mem_cons_of_mem _ h2))
    simp only [statsStmts, hres, configRowsOf_append, List.length_append,
      configRowsOf_cons_config, configRowsOf_map_dropoffs, List.length_cons,
      List.length_nil, hrest]
    omega

theorem weaponsStmts_count (d : WeaponsData) (bmap amap : String → Option Nat)
    (c : Category) :
    ∀ (ws : List Weapon) (cid : Nat),
      (∀ w ∈ ws, ∀ st ∈ w.stats, (bmap st.barrel_type).isSome ∧ (amap st.ammo_type).isSome) →
      (configRowsOf (weaponsStmts d bmap amap c ws cid).1).length
        = (ws.map (fun w => w.stats.length)).sum := by
  intro ws
  induction ws with
  | nil => intro cid _; simp [weaponsStmts, configRowsOf]
  | cons w rest ih =>
    intro cid h
    have hw := statsStmts_count bmap amap (secondPassWeaponId d c w) w.stats cid
      (h w (List.mem_cons_self _ _))
    have hrest := ih (statsStmts bmap amap (secondPassWeaponId d c w) w.stats cid).2
      (fun w2 h2 => h w2 (List.mem_cons_of_mem _ h2))
    simp only [weaponsStmts, configRowsOf_append, List.length_append, hw, hrest,
      List.map_cons, List.sum_cons]

theorem categoriesStmts_count (d : WeaponsData) (bmap amap : String → Option Nat) :
    ∀ (cs : List Category) (cid : Nat),
      (∀ c ∈ cs, ∀ w ∈ c.weapons, ∀ st ∈ w.stats,
        (bmap st.barrel_type).isSome ∧ (amap st.ammo_type).isSome) →
      (configRowsOf (categoriesStmts d bmap amap cs cid).1).length
        = (cs.map (fun c => (c.weapons.map (fun w => w.stats.length)).sum)).sum := by
  intro cs
  induction cs with
  | nil => intro cid _; simp [categoriesStmts, configRowsOf]
  | cons c rest ih =>
    intro cid h
    have hc := weaponsStmts_count d bmap amap c c.weapons cid (h c (List.mem_cons_self _ _))
    have hrest := ih (weaponsStmts d bmap amap c c.weapons cid).2
      (fun c2 h2 => h c2 (List.mem_cons_of_mem _ h2))
    simp only [categoriesStmts, configRowsOf_append, List.length_append, hc, hrest,
      List.map_cons, List.sum_cons]

theorem length_filterMap_of_isSome {α β : Type} (f : α → Option β) :
    ∀ l : List α, (∀ e ∈ l, (f e).isSome) → (l.filterMap f).length = l.length := by
  intro l
  induction l with
  | nil => intro _; rfl
  | cons a rest ih =>
    intro h
    obtain ⟨b, hb⟩ := Option.isSome_iff_exists.mp (h a (List.mem_cons_self _ _))
    simp [List.filterMap_cons, hb, ih (fun e he => h e (List.mem_cons_of_mem _ he))]

/-! ## Helper lemmas about enumerated row lists -/

theorem enum_map_length {α β : Type} (l : List α) (f : Nat × α → β) :
    (l.enum.map f).length = l.length := by
  simp

theorem enum_map_get {α β : Type} (l : List α) (f : Nat × α → β) (i : Nat)
    (h : i < (l.enum.map f).length) :
    (l.enum.map f).get ⟨i, h⟩ = f (i, l.get ⟨i, (enum_map_length l f) ▸ h⟩) := by
  simp [List.getElem_enum]

theorem enum_map_fst_mem {α β : Type} (l : List α) (g : α → β) (j : Nat)
    (h1 : 1 ≤ j) (h2 : j ≤ l.length) :
    ∃ b, (j, b) ∈ l.enum.map (fun p => (p.1 + 1, g p.2)) := by
  have hj : j - 1 < l.length := by omega
  have hlen : j - 1 < (l.enum.map (fun p => (p.1 + 1, g p.2))).length := by
    rw [enum_map_length]; omega
  refine ⟨g (l.get ⟨j - 1, hj⟩), ?_⟩
  have hget := enum_map_get l (fun p => (p.1 + 1, g p.2)) (j - 1) hlen
  have hmem := List.get_mem (l.enum.map (fun p => (p.1 + 1, g p.2))) (j - 1) hlen
  rw [hget] at hmem
  have hj1 : j - 1 + 1 = j := by omega
  simpa [hj1] using hmem

theorem mem_enum_elim {α : Type} (l : List α) (p : Nat × α) (hp : p ∈ l.enum) :
    ∃ h : p.1 < l.length, l.get ⟨p.1, h⟩ = p.2 := by
  obtain ⟨n, hn⟩ := List.mem_iff_get.mp hp
  have hlen : (n : Nat) < l.length := by
    have := n.isLt
    simpa using this
  have hget : l.enum.get n = ((n : Nat), l.get ⟨(n : Nat), hlen⟩) := by
    simp [List.getElem_enum]
  rw [hget] at hn
  obtain rfl := hn.symm
  exact ⟨hlen, rfl⟩

/-! ## Bounds on the second-pass weapon id -/

theorem takeWhile_length_lt {α : Type} (p : α → Bool) (l : List α) (a : α)
    (ha : a ∈ l) (hpa : p a = false) : (l.takeWhile p).length < l.length := by
  induction l with
  | nil => simp at ha
  | cons b rest ih =>
    rcases List.mem_cons.mp ha with rfl | hmem
    · simp [List.takeWhile_cons, hpa]
    · cases hpb : p b
      · simp [List.takeWhile_cons, hpb]
      · simpa [List.takeWhile_cons, hpb, Nat.succ_lt_succ_iff] using ih hmem

theorem sum_le_of_mem_map (cs : List Category) (c : Category) (hc : c ∈ cs) :
    c.weapons.length ≤ (cs.map (fun c2 => c2.weapons.length)).sum :=
  List.single_le_sum (by simp) _ (List.mem_map_of_mem _ hc)

theorem secondPassWeaponId_le_aux (c : Category) (w : Weapon) (hw : w ∈ c.weapons) :
    ∀ cs : List Category, c ∈ cs →
      ((cs.takeWhile (fun c2 => c2.name != c.name)).map (fun c2 => c2.weapons.length)).sum
          + (c.weapons.takeWhile (fun w2 => w2.name != w.name)).length + 1
        ≤ (cs.map (fun c2 => c2.weapons.length)).sum := by
  have hinner : (c.weapons.takeWhile (fun w2 => w2.name != w.name)).length
      < c.weapons.length :=
    takeWhile_length_lt _ _ w hw (by simp)
  intro cs
  induction cs with
  | nil => intro hc; simp at hc
  | cons c0 rest ih =>
    intro hc
    cases hname : (c0.name != c.name)
    · have hcw : c.weapons.length ≤ (List.map (fun c2 => c2.weapons.length) (c0 :: rest)).sum := by
        rcases List.mem_cons.mp hc with rfl | hmem
        · simp
        · calc c.weapons.length ≤ (rest.map (fun c2 => c2.weapons.length)).sum :=
                sum_le_of_mem_map rest c hmem
            _ ≤ (List.map (fun c2 => c2.weapons.length) (c0 :: rest)).sum := by
                simp
      simp only [List.takeWhile_cons, hname, if_false, Bool.false_eq_true,
        List.map_nil, List.sum_nil, Nat.zero_add]
      calc (c.weapons.takeWhile (fun w2 => w2.name != w.name)).length + 1
          ≤ c.weapons.length := hinner
        _ ≤ (List.map (fun c2 => c2.weapons.length) (c0 :: rest)).sum := hcw
    · have hne : c ≠ c0 := by
        intro hEq
        subst hEq
        simp at hname
      have hmem : c ∈ rest := by
        rcases List.mem_cons.mp hc with h | h
        · exact absurd h.symm (Ne.symm hne)
        · exact h
      have := ih hmem
      simp only [List.takeWhile_cons, hname, if_true, List.map_cons, List.sum_cons]
      omega

theorem secondPassWeaponId_bounds (d : WeaponsData) (c : Category) (w : Weapon)
    (hc : c ∈ d.categories) (hw : w ∈ c.weapons) :
    1 ≤ secondPassWeaponId d c w
      ∧ secondPassWeaponId d c w ≤ (d.categories.map (fun c2 => c2.weapons.length)).sum := by
  constructor
  · unfold secondPassWeaponId; omega
  · exact secondPassWeaponId_le_aux c w hw d.categories hc

theorem weaponsFlat_length (d : WeaponsData) :
    (weaponsFlat d).length = (d.categories.map (fun c2 => c2.weapons.length)).sum := by
  unfold weaponsFlat
  rw [List.length_flatten, List.map_map]
  have : (List.length ∘ fun p : Nat × Category => p.2.weapons.map (fun w => (w, p.1 + 1)))
      = (fun p : Nat × Category => p.2.weapons.length) := by
    funext p
    simp
  rw [this]
  have h4 : (fun p : Nat × Category => p.2.weapons.length)
      = ((fun c2 : Category => c2.weapons.length) ∘ Prod.snd) := by
    funext p
    simp
  rw [h4, ← List.map_map, List.enum_map_snd]

/-! ## Exact second-pass weapon ids under distinct names -/

theorem takeWhile_neq_of_nodup {α : Type} (f : α → String) :
    ∀ (l : List α), (l.map f).Nodup →
      ∀ (i : Nat) (h : i < l.length),
        l.takeWhile (fun x => f x != f (l.get ⟨i, h⟩)) = l.take i := by
  intro l
  induction l with
  | nil => intro _ i h; simp at h
  | cons a rest ih =>
    intro hnd i h
    cases i with
    | zero => simp [List.takeWhile_cons]
    | succ i2 =>
      have hi2 : i2 < rest.length := Nat.lt_of_succ_lt_succ h
      have hne : f a ≠ f (rest.get ⟨i2, hi2⟩) := by
        intro hEq
        have : f (rest.get ⟨i2, hi2⟩) ∈ rest.map f :=
          List.mem_map_of_mem f (List.get_mem rest i2 hi2)
        exact (List.nodup_cons.mp hnd).1 (hEq ▸ this)
      simp only [List.get_cons_succ]
      have hb : (f a != f (rest.get ⟨i2, hi2⟩)) = true := by simpa using hne
      simp only [List.takeWhile_cons, hb, if_true, List.take_succ_cons]
      rw [ih (List.nodup_cons.mp hnd).2 i2 hi2]

theorem secondPassWeaponId_of_distinct (d : WeaponsData)
    (hcat : (d.categories.map Category.name).Nodup)
    (hweap : ∀ c ∈ d.categories, (c.weapons.map Weapon.name).Nodup)
    (i : Nat) (hi : i < d.categories.length) (j : Nat)
    (hj : j < (d.categories.get ⟨i, hi⟩).weapons.length) :
    secondPassWeaponId d (d.categories.get ⟨i, hi⟩)
        ((d.categories.get ⟨i, hi⟩).weapons.get ⟨j, hj⟩)
      = flatPos d.categories i j + 1 := by
  unfold secondPassWeaponId flatPos
  have h1 : d.categories.takeWhile
        (fun c2 => c2.name != (d.categories.get ⟨i, hi⟩).name)
      = d.categories.take i := by
    have := takeWhile_neq_of_nodup Category.name d.categories hcat i hi
    simpa using this
  have h2 : (d.categories.get ⟨i, hi⟩).weapons.takeWhile
        (fun w2 => w2.name != ((d.categories.get ⟨i, hi⟩).weapons.get ⟨j, hj⟩).name)
      = (d.categories.get ⟨i, hi⟩).weapons.take j := by
    have := takeWhile_neq_of_nodup Weapon.name (d.categories.get ⟨i, hi⟩).weapons
      (hweap _ (List.get_mem _ i hi)) j hj
    simpa using this
  rw [h1, h2]
  have h3 : ((d.categories.get ⟨i, hi⟩).weapons.take j).length = j :=
    List.length_take_of_le (Nat.le_of_lt hj)
  rw [h3]

/-! ## Extracting the row sets from the full statement sequence -/

theorem filterMap_map_none {α β γ : Type} (g : α → β) (f : β → Option γ) (l : List α)
    (h : ∀ a, f (g a) = none) : (l.map g).filterMap f = [] := by
  induction l with
  | nil => rfl
  | cons a rest ih => simp [List.filterMap_cons, h a, ih]

theorem filterMap_map_some {α β : Type} (g : α → β) (f : β → Option α) (l : List α)
    (h : ∀ a, f (g a) = some a) : (l.map g).filterMap f = l := by
  induction l with
  | nil => rfl
  | cons a rest ih => simp [List.filterMap_cons, h a, ih]

theorem configRowsOf_populate (d : WeaponsData) :
    configRowsOf (populate_from_json_str d) = configRowsOf (configStmts d) := by
  unfold populate_from_json_str configRowsOf
  simp only [List.filterMap_append]
  rw [filterMap_map_none Stmt.insCategory _ _ (fun a => rfl),
    filterMap_map_none Stmt.insBarrel _ _ (fun a => rfl),
    filterMap_map_none Stmt.insAmmoType _ _ (fun a => rfl),
    filterMap_map_none Stmt.insWeapon _ _ (fun a => rfl),
    filterMap_map_none Stmt.insWeaponAmmoStat _ _ (fun a => rfl)]
  simp

theorem dropoffRowsOf_populate (d : WeaponsData) :
    dropoffRowsOf (populate_from_json_str d) = dropoffRowsOf (configStmts d) := by
  unfold populate_from_json_str dropoffRowsOf
  simp only [List.filterMap_append]
  rw [filterMap_map_none Stmt.insCategory _ _ (fun a => rfl),
    filterMap_map_none Stmt.insBarrel _ _ (fun a => rfl),
    filterMap_map_none Stmt.insAmmoType _ _ (fun a => rfl),
    filterMap_map_none Stmt.insWeapon _ _ (fun a => rfl),
    filterMap_map_none Stmt.insWeaponAmmoStat _ _ (fun a => rfl)]
  simp

theorem wasRowsOf_populate (d : WeaponsData) :
    wasRowsOf (populate_from_json_str d) = wasRows d := by
  unfold populate_from_json_str wasRowsOf
  simp only [List.filterMap_append]
  rw [filterMap_map_none Stmt.insCategory _ _ (fun a => rfl),
    filterMap_map_none Stmt.insBarrel _ _ (fun a => rfl),
    filterMap_map_none Stmt.insAmmoType _ _ (fun a => rfl),
    filterMap_map_none Stmt.insWeapon _ _ (fun a => rfl),
    filterMap_map_some Stmt.insWeaponAmmoStat _ _ (fun a => rfl)]
  have hcfg : ∀ l : List Stmt, DepOrdered l → l.filterMap (fun s =>
      match s with
      | Stmt.insWeaponAmmoStat r => some r
      | _ => none) = [] := by
    intro l hl
    induction hl with
    | nil => rfl
    | block c ds rest hds _ ih =>
      simp only [List.cons_append, List.filterMap_cons, List.filterMap_append]
      rw [filterMap_map_none Stmt.insConfigDropoff _ _ (fun a => rfl), ih]
      simp
  rw [hcfg (configStmts d)
    (categoriesStmts_depOrdered d (barrel_id_map d) (ammo_id_map d) d.categories 1)]
  simp

/-! ## Structure of the flattened weapon list and the raw ammo-stat tuples -/

theorem weaponsFlat_mem_structure (d : WeaponsData) (p : Weapon × Nat)
    (hp : p ∈ weaponsFlat d) :
    ∃ i, ∃ h : i < d.categories.length,
      p.2 = i + 1 ∧ p.1 ∈ (d.categories.get ⟨i, h⟩).weapons := by
  unfold weaponsFlat at hp
  obtain ⟨part, hpart, hmem⟩ := List.mem_flatten.mp hp
  obtain ⟨q, hq, rfl⟩ := List.mem_map.mp hpart
  obtain ⟨hlt, hget⟩ := mem_enum_elim d.categories q hq
  obtain ⟨w, hw, rfl⟩ := List.mem_map.mp hmem
  exact ⟨q.1, hlt, rfl, hget ▸ hw⟩

theorem was_raw_structure (d : WeaponsData) (e : Nat × String × AmmoStat)
    (he : e ∈ weapon_ammo_stats_raw d) :
    ∃ p ∈ weaponsFlat d, ∃ i, ∃ h : i < (weaponsFlat d).length,
      (weaponsFlat d).get ⟨i, h⟩ = p ∧ e.1 = i + 1 ∧ (e.2.1, e.2.2) ∈ p.1.ammo_stats := by
  unfold weapon_ammo_stats_raw at he
  obtain ⟨part, hpart, hmem⟩ := List.mem_flatten.mp he
  obtain ⟨q, hq, rfl⟩ := List.mem_map.mp hpart
  obtain ⟨hlt, hget⟩ := mem_enum_elim (weaponsFlat d) q hq
  obtain ⟨pr, hpr, rfl⟩ := List.mem_map.mp hmem
  exact ⟨q.2, hget ▸ List.get_mem _ q.1 hlt, q.1, hlt, hget, rfl, hpr⟩

/-! ## The entry of the flattened weapon list at a flat position -/

theorem flatParts_cons (k : Nat) (c : Category) (rest : List Category) :
    flatParts k (c :: rest) = c.weapons.map (fun w => (w, k + 1)) ++ flatParts (k + 1) rest := by
  simp [flatParts, List.enumFrom]

theorem weaponsFlat_eq_flatParts (d : WeaponsData) : weaponsFlat d = flatParts 0 d.categories :=
  rfl

theorem get_index_congr {α : Type} (l : List α) (i j : Nat) (hEq : i = j)
    (hi : i < l.length) : l.get ⟨i, hi⟩ = l.get ⟨j, hEq ▸ hi⟩ := by
  subst hEq
  rfl

theorem get_append_right_nat {α : Type} (l1 l2 : List α) (i : Nat) (hge : l1.length ≤ i)
    (h : i < (l1 ++ l2).length) :
    (l1 ++ l2).get ⟨i, h⟩ = l2.get ⟨i - l1.length, by simp at h; omega⟩ := by
  simp only [List.get_eq_getElem]
  rw [List.getElem_append_right hge]

theorem flatParts_get : ∀ (cs : List Category) (k i : Nat) (hi : i < cs.length)
    (j : Nat) (hj : j < (cs.get ⟨i, hi⟩).weapons.length),
    ∃ h : flatPos cs i j < (flatParts k cs).length,
      (flatParts k cs).get ⟨flatPos cs i j, h⟩
        = ((cs.get ⟨i, hi⟩).weapons.get ⟨j, hj⟩, k + i + 1) := by
  intro cs
  induction cs with
  | nil => intro k i hi; simp at hi
  | cons c rest ih =>
    intro k i hi j hj
    cases i with
    | zero =>
      have hpos : flatPos (c :: rest) 0 j = j := by simp [flatPos]
      have hjm : j < (c.weapons.map (fun w => (w, k + 1))).length := by
        simpa using hj
      have hlt : flatPos (c :: rest) 0 j < (flatParts k (c :: rest)).length := by
        rw [hpos, flatParts_cons k c rest, List.length_append]
        omega
      refine ⟨hlt, ?_⟩
      rw [List.get_of_eq (flatParts_cons k c rest)]
      simp only [List.get_eq_getElem]
      have hjp : flatPos (c :: rest) 0 j < (c.weapons.map (fun w => (w, k + 1))).length := by
        rw [hpos]; exact hjm
      rw [List.getElem_append_left hjp]
      simp [hpos]
    | succ i2 =>
      have hi2 : i2 < rest.length := Nat.lt_of_succ_lt_succ hi
      have hpos : flatPos (c :: rest) (i2 + 1) j
          = c.weapons.length + flatPos rest i2 j := by
        simp [flatPos, List.take_succ_cons, Nat.add_assoc]
      obtain ⟨hrec, hval⟩ := ih (k + 1) i2 hi2 j (by simpa using hj)
      have hlt : flatPos (c :: rest) (i2 + 1) j < (flatParts k (c :: rest)).length := by
        rw [hpos, flatParts_cons k c rest, List.length_append, List.length_map]
        omega
      refine ⟨hlt, ?_⟩
      rw [List.get_of_eq (flatParts_cons k c rest)]
      have hge : (c.weapons.map (fun w => (w, k + 1))).length
          ≤ flatPos (c :: rest) (i2 + 1) j := by
        rw [hpos, List.length_map]
        omega
      rw [get_append_right_nat _ _ _ hge]
      have hidx : flatPos (c :: rest) (i2 + 1) j
            - (c.weapons.map (fun w => (w, k + 1))).length
          = flatPos rest i2 j := by
        rw [hpos, List.length_map]
        omega
      rw [get_index_congr _ _ _ hidx, hval]
      have harith : k + 1 + i2 + 1 = k + (i2 + 1) + 1 := by omega
      rw [harith]
      congr 1

/-! ## Helper lemmas about the validator loops -/

theorem foldl_checkTable_fields (db : DB) :
    ∀ (ts : List String) (r : ValidationReport),
      (ts.foldl (checkTable db) r).table_counts
          = r.table_counts ++ ts.map (fun t => (t, rowCount db t))
        ∧ (ts.foldl (checkTable db) r).issues
          = r.issues ++ (ts.filter (fun t => rowCount db t == 0)).map
              (fun t => "Table '" ++ t ++ "' is empty")
        ∧ (ts.foldl (checkTable db) r).is_valid
          = (r.is_valid && ts.all (fun t => !(rowCount db t == 0))) := by
  intro ts
  induction ts with
  | nil => intro r; simp
  | cons t rest ih =>
    intro r
    obtain ⟨ih1, ih2, ih3⟩ := ih (checkTable db r t)
    by_cases h0 : rowCount db t = 0
    · have hc : checkTable db r t
          = { is_valid := false
              issues := r.issues ++ ["Table '" ++ t ++ "' is empty"]
              table_counts := r.table_counts ++ [(t, rowCount db t)] } := by
        simp [checkTable, h0]
      refine ⟨?_, ?_, ?_⟩
      · rw [List.foldl_cons, ih1, hc]
        simp
      · rw [List.foldl_cons, ih2, hc]
        simp [List.filter_cons, h0]
      · rw [List.foldl_cons, ih3, hc]
        simp [h0]
    · have hc : checkTable db r t
          = { is_valid := r.is_valid
              issues := r.issues
              table_counts := r.table_counts ++ [(t, rowCount db t)] } := by
        simp [checkTable, h0]
      refine ⟨?_, ?_, ?_⟩
      · rw [List.foldl_cons, ih1, hc]
        simp
      · rw [List.foldl_cons, ih2, hc]
        simp [List.filter_cons, h0]
      · rw [List.foldl_cons, ih3, hc]
        have hb : (rowCount db t == 0) = false := by simpa using h0
        simp [hb]

theorem foldl_checkIntegrity_fields (db : DB) :
    ∀ (cks : List ((DB → Nat) × String)) (r : ValidationReport),
      (cks.foldl (checkIntegrity db) r).table_counts = r.table_counts
        ∧ (cks.foldl (checkIntegrity db) r).issues
          = r.issues ++ (cks.filter (fun c => decide (c.1 db > 0))).map
              (fun c => toString (c.1 db) ++ " " ++ c.2)
        ∧ (cks.foldl (checkIntegrity db) r).is_valid
          = (r.is_valid && cks.all (fun c => !(decide (c.1 db > 0)))) := by
  intro cks
  induction cks with
  | nil => intro r; simp
  | cons ck rest ih =>
    intro r
    obtain ⟨ih1, ih2, ih3⟩ := ih (checkIntegrity db r ck)
    by_cases h0 : ck.1 db > 0
    · have hc : checkIntegrity db r ck
          = { is_valid := false
              issues := r.issues ++ [toString (ck.1 db) ++ " " ++ ck.2]
              table_counts := r.table_counts } := by
        simp [checkIntegrity, h0]
      refine ⟨?_, ?_, ?_⟩
      · rw [List.foldl_cons, ih1, hc]
      · rw [List.foldl_cons, ih2, hc]
        simp [List.filter_cons, h0]
      · rw [List.foldl_cons, ih3, hc]
        simp [h0]
    · have hc : checkIntegrity db r ck
          = { is_valid := r.is_valid
              issues := r.issues
              table_counts := r.table_counts } := by
        simp [checkIntegrity, h0]
      refine ⟨?_, ?_, ?_⟩
      · rw [List.foldl_cons, ih1, hc]
      · rw [List.foldl_cons, ih2, hc]
        simp [List.filter_cons, h0]
      · rw [List.foldl_cons, ih3, hc]
        simp [h0]

/-! ## Claim theorems -/

/-- C9.  `validate_data` counts the rows of each of the seven tables into
`table_counts` in order, adds one issue per empty table and one issue per
nonzero result of the four orphan queries, returns `is_valid = true` exactly
when the issues list is empty, and never modifies any row (the store returned
by `validate_run` is the one it was given). -/
theorem validate_data_report (db : DB) :
    (validate_data db).table_counts = tableNames.map (fun t => (t, rowCount db t))
      ∧ (validate_data db).issues
        = (tableNames.filter (fun t => rowCount db t == 0)).map
            (fun t => "Table '" ++ t ++ "' is empty")
          ++ (integrityChecks.filter (fun c => decide (c.1 db > 0))).map
            (fun c => toString (c.1 db) ++ " " ++ c.2)
      ∧ ((validate_data db).is_valid = true ↔ (validate_data db).issues = [])
      ∧ (validate_run db).1 = db := by
  have hT := foldl_checkTable_fields db tableNames
    { is_valid := true, issues := [], table_counts := [] }
  have hI := foldl_checkIntegrity_fields db integrityChecks
    (tableNames.foldl (checkTable db) { is_valid := true, issues := [], table_counts := [] })
  have h1 : (validate_data db).table_counts = tableNames.map (fun t => (t, rowCount db t)) := by
    unfold validate_data
    rw [hI.1, hT.1]
    simp
  have h2 : (validate_data db).issues
      = (tableNames.filter (fun t => rowCount db t == 0)).map
          (fun t => "Table '" ++ t ++ "' is empty")
        ++ (integrityChecks.filter (fun c => decide (c.1 db > 0))).map
          (fun c => toString (c.1 db) ++ " " ++ c.2) := by
    unfold validate_data
    rw [hI.2.1, hT.2.1]
    simp
  have h3v : (validate_data db).is_valid
      = (tableNames.all (fun t => !(rowCount db t == 0))
          && integrityChecks.all (fun c => !(decide (c.1 db > 0)))) := by
    unfold validate_data
    rw [hI.2.2, hT.2.2]
    simp
  refine ⟨h1, h2, ?_, rfl⟩
  rw [h3v, h2]
  constructor
  · intro hv
    obtain ⟨ha, hb⟩ := Bool.and_eq_true_iff.mp hv
    have hfa : tableNames.filter (fun t => rowCount db t == 0) = [] := by
      rw [List.filter_eq_nil_iff]
      intro t ht
      have := (List.all_eq_true.mp ha) t ht
      simpa using this
    have hfb : integrityChecks.filter (fun c => decide (c.1 db > 0)) = [] := by
      rw [List.filter_eq_nil_iff]
      intro c hc
      have := (List.all_eq_true.mp hb) c hc
      simpa using this
    rw [hfa, hfb]
    simp
  · intro hv
    obtain ⟨ha, hb⟩ := List.append_eq_nil.mp hv
    have hfa := List.map_eq_nil_iff.mp ha
    have hfb := List.map_eq_nil_iff.mp hb
    refine Bool.and_eq_true_iff.mpr ⟨?_, ?_⟩
    · rw [List.all_eq_true]
      intro t ht
      rcases h : (rowCount db t == 0) with _ | _
      · simp
      · exact absurd (List.mem_filter.mpr ⟨ht, h⟩) (by rw [hfa]; simp)
    · rw [List.all_eq_true]
      intro c hc
      rcases h : (decide (c.1 db > 0)) with _ | _
      · simp
      · exact absurd (List.mem_filter.mpr ⟨hc, h⟩) (by rw [hfb]; simp)

/-- C2.  `populate` is all-or-nothing: every insert runs inside the single
transaction begun before the first insert and committed after the last
(modelled by `populate_run`, which publishes the transaction state only when
every statement of `populate_from_json_str` succeeded).  If any statement
fails — a store fault or a constraint violation — the transaction is rolled
back and the per-table row counts after the attempt equal the counts before
`populate` began. -/
theorem populate_atomicity (pool : DB) (fault : Nat → Bool) (d : WeaponsData) :
    (runStmts fault pool (populate_from_json_str d) 0 = none →
      tableCountsDB (populate_run pool fault d) = tableCountsDB pool)
      ∧ (∀ db2, runStmts fault pool (populate_from_json_str d) 0 = some db2 →
        populate_run pool fault d = db2) := by
  constructor
  · intro h
    unfold populate_run
    rw [h]
  · intro db2 h
    unfold populate_run
    rw [h]

/-- Witness for C2: a store failure injected on the very first statement of
the spec section 8 example leaves the empty store's counts unchanged. -/
theorem populate_atomicity_witness :
    runStmts (fun _ => true) emptyDB (populate_from_json_str exDoc) 0 = none
      ∧ tableCountsDB (populate_run emptyDB (fun _ => true) exDoc)
        = tableCountsDB emptyDB :=
  ⟨by decide, (populate_atomicity emptyDB (fun _ => true) exDoc).1 (by decide)⟩

/-- C7.  Every insert issued by `populate` is conflict-tolerant on its
entity's natural unique key: if the store already holds a row with the same
key, executing the statement leaves the store unchanged and succeeds, so the
load proceeds. -/
theorem insert_conflict_tolerant (d : WeaponsData) (s : Stmt) (db : DB)
    (hs : s ∈ populate_from_json_str d) (hk : natural_key_present s db) :
    applyStmt db s = some db := by
  clear hs
  cases s with
  | insCategory p =>
    obtain ⟨cid, nm⟩ := p
    simp only [natural_key_present] at hk
    simp only [applyStmt]
    rw [if_pos hk]
  | insBarrel p =>
    obtain ⟨bid, nm⟩ := p
    simp only [natural_key_present] at hk
    simp only [applyStmt]
    rw [if_pos hk]
  | insAmmoType p =>
    obtain ⟨aid, nm⟩ := p
    simp only [natural_key_present] at hk
    simp only [applyStmt]
    rw [if_pos hk]
  | insWeapon p =>
    obtain ⟨wid, nm, cid⟩ := p
    simp only [natural_key_present] at hk
    simp only [applyStmt]
    rw [if_pos hk]
  | insWeaponAmmoStat w =>
    simp only [natural_key_present] at hk
    simp only [applyStmt]
    rw [if_pos hk]
  | insConfiguration c =>
    simp only [natural_key_present] at hk
    simp only [applyStmt]
    rw [if_pos hk]
  | insConfigDropoff dr =>
    simp only [natural_key_present] at hk
    simp only [applyStmt]
    rw [if_pos hk]

/-- Witness for C7: re-inserting the category of the spec section 8 example
into a store that already holds a row named `Assault Rifles` (under a
different id) succeeds and changes nothing. -/
theorem insert_conflict_tolerant_witness :
    applyStmt { emptyDB with categories := [(7, "Assault Rifles")] }
        (Stmt.insCategory (1, "Assault Rifles"))
      = some { emptyDB with categories := [(7, "Assault Rifles")] } :=
  insert_conflict_tolerant exDoc (Stmt.insCategory (1, "Assault Rifles"))
    { emptyDB with categories := [(7, "Assault Rifles")] }
    (by decide) ⟨(7, "Assault Rifles"), by decide, rfl⟩

/-- C8.  During populate, a stats entry whose `barrel_type` or `ammo_type` is
absent from its lookup map is skipped entirely — it yields no statement (so
no Configuration row and no ConfigDropoff rows), no error, and leaves the id
counter unchanged — and a raw weapon-ammo-stat tuple whose ammo name is
absent from the ammo lookup map resolves to no row and is dropped silently
(the second-pass emitters are total functions, so no failure is possible). -/
theorem unresolved_skip (bmap amap : String → Option Nat) (wid cid : Nat)
    (st : WeaponStat) (e : Nat × String × AmmoStat) :
    ((bmap st.barrel_type = none ∨ amap st.ammo_type = none) →
      statStmts bmap amap wid cid st = ([], cid))
      ∧ (amap e.2.1 = none → wasRowOf amap e = none) := by
  constructor
  · exact statStmts_unresolved bmap amap wid cid st
  · intro h
    simp [wasRowOf, h]

/-- Witness for C8: under empty lookup maps a concrete stat emits nothing and
a concrete ammo-stat tuple is dropped. -/
theorem unresolved_skip_witness :
    statStmts (fun _ => none) (fun _ => none) 1 1
        { barrel_type := "B", ammo_type := "M", velocity := 5
          rpm_single := none, rpm_burst := none, rpm_auto := none, dropoffs := [] }
      = ([], 1)
      ∧ wasRowOf (fun _ => none)
        (1, "M",
          { mag_size := 1, empty_reload := none, tactical_reload := none
            headshot_multiplier := 1, pellet_count := 1 }) = none :=
  ⟨(unresolved_skip (fun _ => none) (fun _ => none) 1 1
      { barrel_type := "B", ammo_type := "M", velocity := 5
        rpm_single := none, rpm_burst := none, rpm_auto := none, dropoffs := [] }
      (1, "M",
        { mag_size := 1, empty_reload := none, tactical_reload := none
          headshot_multiplier := 1, pellet_count := 1 })).1 (Or.inl rfl),
   (unresolved_skip (fun _ => none) (fun _ => none) 1 1
      { barrel_type := "B", ammo_type := "M", velocity := 5
        rpm_single := none, rpm_burst := none, rpm_auto := none, dropoffs := [] }
      (1, "M",
        { mag_size := 1, empty_reload := none, tactical_reload := none
          headshot_multiplier := 1, pellet_count := 1 })).2 rfl⟩

/-- C5.  Configuration ids are assigned as consecutive integers starting at 1
in the order stats entries are encountered while walking categories, then
weapons, then each weapon's stats (the emitted id list is exactly
`range' 1 n`), for the maps actually built by populate as well as for any
lookup maps; a stats entry whose name is absent from its map consumes no id
(the counter does not advance). -/
theorem config_id_sequential (d : WeaponsData) (bmap amap : String → Option Nat) :
    configIdsOf (categoriesStmts d bmap amap d.categories 1).1
        = List.range' 1 (configRowsOf (categoriesStmts d bmap amap d.categories 1).1).length
      ∧ (∀ (wid cid : Nat) (st : WeaponStat),
          bmap st.barrel_type = none ∨ amap st.ammo_type = none →
          (statStmts bmap amap wid cid st).2 = cid)
      ∧ configIdsOf (configStmts d)
        = List.range' 1 (configRowsOf (configStmts d)).length := by
  refine ⟨(categoriesStmts_ids d bmap amap d.categories 1).1, ?_, ?_⟩
  · intro wid cid st h
    rw [statStmts_unresolved bmap amap wid cid st h]
  · exact (categoriesStmts_ids d (barrel_id_map d) (ammo_id_map d) d.categories 1).1

/-- Witness for C5: the two-stat document gets configuration ids `[1, 2]`,
and a skipped stat leaves the counter at 5. -/
theorem config_id_sequential_witness :
    configIdsOf (configStmts twoStatDoc)
        = List.range' 1 (configRowsOf (configStmts twoStatDoc)).length
      ∧ (statStmts (fun _ => none) (fun _ => none) 1 5
          { barrel_type := "B", ammo_type := "M", velocity := 5
            rpm_single := none, rpm_burst := none, rpm_auto := none
            dropoffs := [] }).2 = 5 :=
  ⟨(config_id_sequential twoStatDoc (barrel_id_map twoStatDoc)
      (ammo_id_map twoStatDoc)).2.2,
   (config_id_sequential twoStatDoc (fun _ => none) (fun _ => none)).2.1 1 5
      { barrel_type := "B", ammo_type := "M", velocity := 5
        rpm_single := none, rpm_burst := none, rpm_auto := none
        dropoffs := [] } (Or.inl rfl)⟩

/-- Counterexample to C6 as stated: on the two-stat document the statement
sequence is category, barrel, barrel, ammo-type, weapon, configuration,
config-dropoff, configuration — the second configuration insert comes after
the first configuration's dropoff insert, so the inserts are not grouped as
"all Configuration rows, then all ConfigDropoff rows". -/
theorem stmt_order_counterexample :
    (populate_from_json_str twoStatDoc).map tableTag = [1, 2, 2, 3, 4, 6, 7, 6]
      ∧ ¬ ((populate_from_json_str twoStatDoc).map tableTag).Sorted (· ≤ ·) := by
  constructor
  · decide
  · decide

/-- C6 (amended).  `populate` performs its inserts as a single transaction,
with the first five tables in strict dependency order — all Category rows,
then all Barrel rows, then all AmmoType rows, then all Weapon rows, then all
WeaponAmmoStat rows — followed by the Configuration and ConfigDropoff
inserts interleaved in blocks: each Configuration insert is immediately
followed by exactly the ConfigDropoff inserts bearing its config id. -/
theorem stmt_order_amended (d : WeaponsData) :
    populate_from_json_str d
        = (catRows d).map Stmt.insCategory
          ++ (barrelRows d).map Stmt.insBarrel
          ++ (ammoRows d).map Stmt.insAmmoType
          ++ (weaponRows d).map Stmt.insWeapon
          ++ (wasRows d).map Stmt.insWeaponAmmoStat
          ++ configStmts d
      ∧ DepOrdered (configStmts d) :=
  ⟨rfl, categoriesStmts_depOrdered d (barrel_id_map d) (ammo_id_map d) d.categories 1⟩

theorem mem_ammoNames_iff (d : WeaponsData) (s : String) :
    s ∈ ammoNames d ↔ (s ∈ stats_ammo_names d ∨ s ∈ ammo_stat_keys d) := by
  constructor
  · intro h
    unfold ammoNames at h
    obtain ⟨part, hpart, hmem⟩ := List.mem_flatten.mp h
    obtain ⟨c, hc, rfl⟩ := List.mem_map.mp hpart
    obtain ⟨part2, hpart2, hmem2⟩ := List.mem_flatten.mp hmem
    obtain ⟨w, hw, rfl⟩ := List.mem_map.mp hpart2
    rcases List.mem_append.mp hmem2 with h2 | h2
    · left
      unfold stats_ammo_names
      exact mem_flatten_of_parts _ _ _ (List.mem_map_of_mem _ hc)
        (mem_flatten_of_parts _ _ _ (List.mem_map_of_mem _ hw) h2)
    · right
      unfold ammo_stat_keys
      exact mem_flatten_of_parts _ _ _ (List.mem_map_of_mem _ hc)
        (mem_flatten_of_parts _ _ _ (List.mem_map_of_mem _ hw) h2)
  · intro h
    unfold ammoNames
    rcases h with h | h
    · unfold stats_ammo_names at h
      obtain ⟨part, hpart, hmem⟩ := List.mem_flatten.mp h
      obtain ⟨c, hc, rfl⟩ := List.mem_map.mp hpart
      obtain ⟨part2, hpart2, hmem2⟩ := List.mem_flatten.mp hmem
      obtain ⟨w, hw, rfl⟩ := List.mem_map.mp hpart2
      exact mem_flatten_of_parts _ _ _ (List.mem_map_of_mem _ hc)
        (mem_flatten_of_parts _ _ _ (List.mem_map_of_mem _ hw)
          (List.mem_append_left _ hmem2))
    · unfold ammo_stat_keys at h
      obtain ⟨part, hpart, hmem⟩ := List.mem_flatten.mp h
      obtain ⟨c, hc, rfl⟩ := List.mem_map.mp hpart
      obtain ⟨part2, hpart2, hmem2⟩ := List.mem_flatten.mp hmem
      obtain ⟨w, hw, rfl⟩ := List.mem_map.mp hpart2
      exact mem_flatten_of_parts _ _ _ (List.mem_map_of_mem _ hc)
        (mem_flatten_of_parts _ _ _ (List.mem_map_of_mem _ hw)
          (List.mem_append_right _ hmem2))

/-- C3.  The barrel vector is the sorted deduplication of all `barrel_type`
strings observed across all weapons' stats, the ammo vector is the sorted
deduplication of the union of all `ammo_type` strings and all `ammo_stats`
keys, the id assigned to the name at sorted position `i` is `i + 1` (so each
name's id is its 1-based sorted position), and the assignment depends only on
the membership of the collected name sets — not on the order names are
encountered during traversal. -/
theorem barrel_ammo_id_assignment (d : WeaponsData) :
    ((barrels_sorted d).Sorted sLE ∧ (barrels_sorted d).Nodup
        ∧ (∀ s, s ∈ barrels_sorted d ↔ s ∈ barrelNames d))
      ∧ ((ammo_types_vec d).Sorted sLE ∧ (ammo_types_vec d).Nodup
        ∧ (∀ s, s ∈ ammo_types_vec d
            ↔ (s ∈ stats_ammo_names d ∨ s ∈ ammo_stat_keys d)))
      ∧ (∀ (i : Nat) (h : i < (barrels_sorted d).length),
          barrel_id_map d ((barrels_sorted d).get ⟨i, h⟩) = some (i + 1))
      ∧ (∀ (i : Nat) (h : i < (ammo_types_vec d).length),
          ammo_id_map d ((ammo_types_vec d).get ⟨i, h⟩) = some (i + 1))
      ∧ (∀ d2 : WeaponsData,
          ((∀ s, s ∈ barrelNames d ↔ s ∈ barrelNames d2) →
            ∀ n, barrel_id_map d n = barrel_id_map d2 n)
          ∧ ((∀ s, s ∈ ammoNames d ↔ s ∈ ammoNames d2) →
            ∀ n, ammo_id_map d n = ammo_id_map d2 n)) := by
  refine ⟨⟨sortedDedup_sorted _, sortedDedup_nodup _, fun s => mem_sortedDedup _ s⟩,
    ⟨sortedDedup_sorted _, sortedDedup_nodup _, fun s => ?_⟩, ?_, ?_, ?_⟩
  · rw [show ammo_types_vec d = sortedDedup (ammoNames d) from rfl, mem_sortedDedup]
    exact mem_ammoNames_iff d s
  · intro i h
    exact lookup_idPairs_get (barrels_sorted d) (sortedDedup_nodup _) i h
  · intro i h
    exact lookup_idPairs_get (ammo_types_vec d) (sortedDedup_nodup _) i h
  · intro d2
    constructor
    · intro hmem n
      unfold barrel_id_map barrels_sorted
      rw [sortedDedup_eq_of_mem_iff (barrelNames d) (barrelNames d2) hmem]
    · intro hmem n
      unfold ammo_id_map ammo_types_vec
      rw [sortedDedup_eq_of_mem_iff (ammoNames d) (ammoNames d2) hmem]

/-- Witness for C3: on the spec section 8 example the first sorted barrel and
ammo names get id 1, and the id maps agree with themselves under the
identity membership correspondence. -/
theorem barrel_ammo_id_assignment_witness :
    barrel_id_map exDoc ((barrels_sorted exDoc).get ⟨0, by decide⟩) = some 1
      ∧ ammo_id_map exDoc ((ammo_types_vec exDoc).get ⟨0, by decide⟩) = some 1
      ∧ barrel_id_map exDoc "Standard" = barrel_id_map exDoc "Standard" :=
  ⟨(barrel_ammo_id_assignment exDoc).2.2.1 0 (by decide),
   (barrel_ammo_id_assignment exDoc).2.2.2.1 0 (by decide),
   ((barrel_ammo_id_assignment exDoc).2.2.2.2 exDoc).1 (fun s => Iff.rfl) "Standard"⟩

/-- C4.  The Category row for the `i`-th category in document order carries
id `i + 1`, and the Weapon row at position `i` of the flattened
categories-then-weapons traversal carries id `i + 1`, the name of the weapon
at that flat position, and the id `catIdx + 1` of its enclosing category; no
sorting is applied, the ids being positional. -/
theorem category_weapon_id_assignment (d : WeaponsData) :
    (catRows d).length = d.categories.length
      ∧ (∀ (i : Nat) (h1 : i < d.categories.length) (h2 : i < (catRows d).length),
          (catRows d).get ⟨i, h2⟩ = (i + 1, (d.categories.get ⟨i, h1⟩).name))
      ∧ (weaponRows d).length = (weaponsFlat d).length
      ∧ (∀ (i : Nat) (h1 : i < (weaponsFlat d).length) (h2 : i < (weaponRows d).length),
          (weaponRows d).get ⟨i, h2⟩
            = (i + 1, ((weaponsFlat d).get ⟨i, h1⟩).1.name, ((weaponsFlat d).get ⟨i, h1⟩).2))
      ∧ (∀ p ∈ weaponsFlat d, ∃ i, ∃ h : i < d.categories.length,
          p.2 = i + 1 ∧ p.1 ∈ (d.categories.get ⟨i, h⟩).weapons) := by
  refine ⟨enum_map_length _ _, ?_, enum_map_length _ _, ?_, weaponsFlat_mem_structure d⟩
  · intro i h1 h2
    exact enum_map_get d.categories (fun p => (p.1 + 1, p.2.name)) i h2
  · intro i h1 h2
    exact enum_map_get (weaponsFlat d) (fun q => (q.1 + 1, q.2.1.name, q.2.2)) i h2

/-- Witness for C4: on the spec section 8 example the first category row is
`(1, "Assault Rifles")` and the first weapon row is `(1, "M4", 1)`. -/
theorem category_weapon_id_assignment_witness :
    (catRows exDoc).get ⟨0, by decide⟩ = (1, "Assault Rifles")
      ∧ (weaponRows exDoc).get ⟨0, by decide⟩ = (1, "M4", 1) := by
  constructor
  · have h := (category_weapon_id_assignment exDoc).2.1 0 (by decide) (by decide)
    rw [h]
    decide
  · have h := (category_weapon_id_assignment exDoc).2.2.2.1 0 (by decide) (by decide)
    rw [h]
    decide

/-- C10.  The defensive skip branches of populate are unreachable on the maps
populate itself builds: the lookup maps resolve every `barrel_type` and
`ammo_type` of every stats entry and every `ammo_stats` key, so the number of
Configuration rows inserted equals the total number of stats entries across
all weapons, and no WeaponAmmoStat row is dropped. -/
theorem defensive_skip_unreachable (d : WeaponsData) :
    (∀ c ∈ d.categories, ∀ w ∈ c.weapons,
        (∀ st ∈ w.stats,
          (barrel_id_map d st.barrel_type).isSome
            ∧ (ammo_id_map d st.ammo_type).isSome)
        ∧ (∀ p ∈ w.ammo_stats, (ammo_id_map d p.1).isSome))
      ∧ (configRowsOf (populate_from_json_str d)).length = totalStats d
      ∧ (wasRows d).length = (weapon_ammo_stats_raw d).length := by
  have hres : ∀ c ∈ d.categories, ∀ w ∈ c.weapons, ∀ st ∈ w.stats,
      (barrel_id_map d st.barrel_type).isSome ∧ (ammo_id_map d st.ammo_type).isSome := by
    intro c hc w hw st hst
    exact ⟨barrel_id_map_isSome_of_mem d _ (barrel_type_mem_barrelNames d c w st hc hw hst),
      ammo_id_map_isSome_of_mem d _ (ammo_type_mem_ammoNames d c w st hc hw hst)⟩
  refine ⟨?_, ?_, ?_⟩
  · intro c hc w hw
    refine ⟨hres c hc w hw, ?_⟩
    intro p hp
    exact ammo_id_map_isSome_of_mem d _ (ammo_key_mem_ammoNames d c w p hc hw hp)
  · rw [configRowsOf_populate]
    exact categoriesStmts_count d (barrel_id_map d) (ammo_id_map d) d.categories 1 hres
  · unfold wasRows
    refine length_filterMap_of_isSome _ _ ?_
    intro e he
    obtain ⟨p, hp, i, hlt, hget, hid, hkey⟩ := was_raw_structure d e he
    obtain ⟨i2, h2, hcat, hmem⟩ := weaponsFlat_mem_structure d p hp
    have hisSome := ammo_id_map_isSome_of_mem d e.2.1
      (ammo_key_mem_ammoNames d (d.categories.get ⟨i2, h2⟩) p.1 (e.2.1, e.2.2)
        (List.get_mem _ i2 h2) hmem hkey)
    unfold wasRowOf
    obtain ⟨aid, haid⟩ := Option.isSome_iff_exists.mp hisSome
    simp [haid]

/-- Witness for C10: on the spec section 8 example the barrel name of the
only stats entry resolves, the configuration count equals the stats count,
and no ammo-stat row is dropped. -/
theorem defensive_skip_unreachable_witness :
    (barrel_id_map exDoc "Standard").isSome = true
      ∧ (configRowsOf (populate_from_json_str exDoc)).length = totalStats exDoc
      ∧ (wasRows exDoc).length = (weapon_ammo_stats_raw exDoc).length := by
  refine ⟨?_, (defensive_skip_unreachable exDoc).2.1, (defensive_skip_unreachable exDoc).2.2⟩
  have h := ((defensive_skip_unreachable exDoc).1
      (exDoc.categories.get ⟨0, by decide⟩)
      (List.get_mem exDoc.categories 0 (by decide))
      ((exDoc.categories.get ⟨0, by decide⟩).weapons.get ⟨0, by decide⟩)
      (List.get_mem _ 0 (by decide))).1
      (((exDoc.categories.get ⟨0, by decide⟩).weapons.get ⟨0, by decide⟩).stats.get
        ⟨0, by decide⟩)
      (List.get_mem _ 0 (by decide))
  exact h.1

/-- Counterexample to C1 as stated: in the duplicate-name document the only
stats entry belongs to the second weapon named `X` (flat position 1, whose
Weapon row is `(2, "X", 1)`), yet the second pass recomputes the weapon id
from the first occurrence of the name, so the emitted Configuration row binds
`weapon_id = 1`, not the producing weapon's row id `2`. -/
theorem config_weapon_link_counterexample :
    configRowsOf (populate_from_json_str dupDoc)
        = [{ config_id := 1, weapon_id := 1, barrel_id := 1, ammo_id := 1
             velocity := 5, rpm_single := none, rpm_burst := none, rpm_auto := none }]
      ∧ weaponRows dupDoc = [(1, "X", 1), (2, "X", 1)]
      ∧ ((dupDoc.categories.get ⟨0, by decide⟩).weapons.get ⟨0, by decide⟩).stats = []
      ∧ ((dupDoc.categories.get ⟨0, by decide⟩).weapons.get ⟨1, by decide⟩).stats.length = 1
      ∧ secondPassWeaponId dupDoc (dupDoc.categories.get ⟨0, by decide⟩)
          ((dupDoc.categories.get ⟨0, by decide⟩).weapons.get ⟨1, by decide⟩)
        ≠ flatPos dupDoc.categories 0 1 + 1 := by
  refine ⟨by decide, by decide, by decide, by decide, by decide⟩

/-- C1 (amended).  For every parsed document the row sets produced by
populate are internally consistent: every `weapon_id`, `barrel_id` and
`ammo_id` bound into a Configuration row, every `(weapon_id, ammo_id)` bound
into a WeaponAmmoStat row, and every `config_id` bound into a ConfigDropoff
row equals the id of an entity row emitted in the same pass.  Moreover, when
all category names are pairwise distinct and each category's weapon names
are pairwise distinct, each Configuration row references the Weapon row of
the weapon whose stats entry produced it: the recomputed second-pass weapon
id equals the producing weapon's flat position plus one, and the Weapon row
at that flat position carries exactly that id, that weapon's name, and the
enclosing category's id.  (With duplicate names it may instead reference the
row of an earlier entity with the same name, as the counterexample shows.) -/
theorem row_set_consistency (d : WeaponsData) :
    (∀ r ∈ configRowsOf (populate_from_json_str d),
        (∃ q ∈ weaponRows d, q.1 = r.weapon_id)
          ∧ (∃ b ∈ barrelRows d, b.1 = r.barrel_id)
          ∧ (∃ a ∈ ammoRows d, a.1 = r.ammo_id))
      ∧ (∀ r ∈ wasRowsOf (populate_from_json_str d),
          (∃ q ∈ weaponRows d, q.1 = r.weapon_id)
            ∧ (∃ a ∈ ammoRows d, a.1 = r.ammo_id))
      ∧ (∀ dr ∈ dropoffRowsOf (populate_from_json_str d),
          ∃ r ∈ configRowsOf (populate_from_json_str d), r.config_id = dr.config_id)
      ∧ ((d.categories.map Category.name).Nodup →
          (∀ c ∈ d.categories, (c.weapons.map Weapon.name).Nodup) →
          ∀ (i : Nat) (hi : i < d.categories.length) (j : Nat)
            (hj : j < (d.categories.get ⟨i, hi⟩).weapons.length),
            secondPassWeaponId d (d.categories.get ⟨i, hi⟩)
                ((d.categories.get ⟨i, hi⟩).weapons.get ⟨j, hj⟩)
              = flatPos d.categories i j + 1
            ∧ ∃ h2 : flatPos d.categories i j < (weaponRows d).length,
                (weaponRows d).get ⟨flatPos d.categories i j, h2⟩
                  = (flatPos d.categories i j + 1,
                      ((d.categories.get ⟨i, hi⟩).weapons.get ⟨j, hj⟩).name, i + 1)) := by
  have hwrow : ∀ wid : Nat, 1 ≤ wid → wid ≤ (weaponsFlat d).length →
      ∃ q ∈ weaponRows d, q.1 = wid := by
    intro wid h1 h2
    obtain ⟨b, hb⟩ := enum_map_fst_mem (weaponsFlat d)
      (fun x => (x.1.name, x.2)) wid h1 h2
    exact ⟨(wid, b), hb, rfl⟩
  have hbrow : ∀ bid : Nat, 1 ≤ bid → bid ≤ (barrels_sorted d).length →
      ∃ b ∈ barrelRows d, b.1 = bid := by
    intro bid h1 h2
    obtain ⟨nm, hnm⟩ := enum_map_fst_mem (barrels_sorted d) (fun x => x) bid h1 h2
    exact ⟨(bid, nm), hnm, rfl⟩
  have harow : ∀ aid : Nat, 1 ≤ aid → aid ≤ (ammo_types_vec d).length →
      ∃ a ∈ ammoRows d, a.1 = aid := by
    intro aid h1 h2
    obtain ⟨nm, hnm⟩ := enum_map_fst_mem (ammo_types_vec d) (fun x => x) aid h1 h2
    exact ⟨(aid, nm), hnm, rfl⟩
  refine ⟨?_, ?_, ?_, ?_⟩
  · intro r hr
    rw [configRowsOf_populate] at hr
    obtain ⟨⟨c, hc, w, hw, hid⟩, ⟨nb, hnb⟩, ⟨na, hna⟩⟩ :=
      categoriesStmts_src d (barrel_id_map d) (ammo_id_map d) d.categories 1 r hr
    refine ⟨?_, ?_, ?_⟩
    · obtain ⟨hge, hle⟩ := secondPassWeaponId_bounds d c w hc hw
      refine hwrow r.weapon_id (hid ▸ hge) ?_
      rw [weaponsFlat_length]
      exact hid ▸ hle
    · obtain ⟨hge, hle⟩ := lookup_idPairs_mem_range (barrels_sorted d) nb r.barrel_id hnb
      exact hbrow r.barrel_id hge hle
    · obtain ⟨hge, hle⟩ := lookup_idPairs_mem_range (ammo_types_vec d) na r.ammo_id hna
      exact harow r.ammo_id hge hle
  · intro r hr
    rw [wasRowsOf_populate] at hr
    obtain ⟨e, he, heq⟩ := List.mem_filterMap.mp hr
    obtain ⟨aid, haid, hrow⟩ := Option.map_eq_some'.mp heq
    obtain ⟨p, hp, i, hlt, hget, hid, hkey⟩ := was_raw_structure d e he
    refine ⟨?_, ?_⟩
    · have h1 : r.weapon_id = e.1 := by rw [← hrow]
      rw [h1, hid]
      exact hwrow (i + 1) (by omega) (by omega)
    · have h2 : r.ammo_id = aid := by rw [← hrow]
      obtain ⟨hge, hle⟩ := lookup_idPairs_mem_range (ammo_types_vec d) e.2.1 aid haid
      rw [h2]
      exact harow aid hge hle
  · intro dr hdr
    rw [dropoffRowsOf_populate] at hdr
    rw [configRowsOf_populate]
    exact categoriesStmts_dropoff_cover d (barrel_id_map d) (ammo_id_map d)
      d.categories 1 dr hdr
  · intro hcat hweap i hi j hj
    refine ⟨secondPassWeaponId_of_distinct d hcat hweap i hi j hj, ?_⟩
    obtain ⟨hfl, hfv⟩ := flatParts_get d.categories 0 i hi j hj
    have hfl2 : flatPos d.categories i j < (weaponRows d).length := by
      have h3 : (weaponRows d).length = (weaponsFlat d).length := enum_map_length _ _
      rw [h3]
      exact hfl
    refine ⟨hfl2, ?_⟩
    have hget2 : (weaponRows d).get ⟨flatPos d.categories i j, hfl2⟩
        = (flatPos d.categories i j + 1,
            ((weaponsFlat d).get ⟨flatPos d.categories i j, hfl⟩).1.name,
            ((weaponsFlat d).get ⟨flatPos d.categories i j, hfl⟩).2) :=
      enum_map_get (weaponsFlat d)
        (fun q => (q.1 + 1, q.2.1.name, q.2.2)) (flatPos d.categories i j) hfl2
    rw [hget2]
    have hfv2 : (weaponsFlat d).get ⟨flatPos d.categories i j, hfl⟩
        = ((d.categories.get ⟨i, hi⟩).weapons.get ⟨j, hj⟩, 0 + i + 1) := hfv
    rw [hfv2]
    simp

/-- Witness for C1 (amended): on the spec section 8 example, whose names are
distinct, the recomputed second-pass weapon id of the first weapon is its
flat position plus one. -/
theorem row_set_consistency_witness :
    secondPassWeaponId exDoc (exDoc.categories.get ⟨0, by decide⟩)
        ((exDoc.categories.get ⟨0, by decide⟩).weapons.get ⟨0, by decide⟩)
      = flatPos exDoc.categories 0 0 + 1 :=
  ((row_set_consistency exDoc).2.2.2 (by decide) (by decide) 0 (by decide)
    0 (by decide)).1

end WeaponStats
